import Mathlib

/-!
Verification of the elastic travel replan engine.

This file gives a shallow embedding of the core of the repository
(`backend/engine/elastic_replan.py`, `backend/engine/routing_solver.py`,
`backend/engine/friction_model.py`) and proves or refutes the frozen
claims about it.

Modelling conventions:
* Python ints are `Int`; matrices are `List (List Int)` (lists of rows),
  read through `mat` (out-of-range reads default to 0; all reads performed
  by the embedded code on well-formed inputs are in range).
* Stop coordinates (`lat`, `lng`) feed only the external route oracle
  (OSRM / mock HTTP upstreams); the matrix fan-out
  (`fetch_alternatives`) is therefore abstracted as an oracle `FetchFn`
  supplying the cost matrix, time matrix and per-edge detail map, and the
  coordinate fields are elided from the `Stop` record.
* The OR-Tools CP-SAT solver is external; its constraint model
  (lines 29-75 of routing_solver.py) is embedded as the predicate
  `VrptwSat`, and the solver plus the route reconstruction of lines 82-95
  is abstracted as a function satisfying the contract `SolverSound`.
* Wall-clock readings (deadline computation, projected ETA, friction
  features derived from the current hour) are abstracted into an
  environment record `Env`.
-/

namespace ElasticTravel

/-- Transport modes, mirroring the `TransportMode` literal type. -/
inductive TransportMode where
  | WALKING | TRANSIT | EBIKE | RIDESHARE
  deriving DecidableEq, Repr, Inhabited

/-- String form of a mode, as carried in the JSON payloads; disruption
events carry `affectedModes` as raw strings and the engine compares the
leg's mode literal against them. -/
def TransportMode.str : TransportMode → String
  | .WALKING => "WALKING"
  | .TRANSIT => "TRANSIT"
  | .EBIKE => "EBIKE"
  | .RIDESHARE => "RIDESHARE"

/-- Stop priorities (`StopPriority` literal type). -/
inductive StopPriority where
  | MUST_VISIT | NICE_TO_HAVE
  deriving DecidableEq, Repr, Inhabited

/-- Stop statuses (`StopStatus` literal type). -/
inductive StopStatus where
  | PENDING | COMPLETED | DROPPED
  deriving DecidableEq, Repr, Inhabited

/-- Itinerary statuses (`ItineraryStatus` literal type). -/
inductive ItineraryStatus where
  | ACTIVE | REPLANNING | COMPLETED
  deriving DecidableEq, Repr, Inhabited

/-- Disruption types (`DisruptionType` literal type). -/
inductive DisruptionType where
  | TRANSIT_DELAY | LINE_CANCELLATION | VENUE_CLOSED | WEATHER
  deriving DecidableEq, Repr, Inhabited

/-- Severities (`Severity` literal type). -/
inductive Severity where
  | MINOR | MAJOR | CRITICAL
  deriving DecidableEq, Repr, Inhabited

/-- Friction levels (`FrictionLevel` enum of friction_model.py). -/
inductive FrictionLevel where
  | LOW | MEDIUM | HIGH
  deriving DecidableEq, Repr, Inhabited

/-- The `Stop` pydantic model (lat/lng elided, see header). -/
structure Stop where
  id : String
  name : String
  priority : StopPriority
  status : StopStatus
  dropReason : Option String
  deriving DecidableEq, Repr, Inhabited

/-- The `Leg` pydantic model. Friction scores are modelled as rationals. -/
structure Leg where
  fromStopId : String
  toStopId : String
  mode : TransportMode
  costCents : Int
  durationSec : Int
  available : Bool
  polyline : Option String
  frictionScore : Option Rat
  frictionLevel : Option FrictionLevel
  deriving DecidableEq, Repr, Inhabited

/-- The `UserConstraints` pydantic model. -/
structure UserConstraints where
  budgetCents : Int
  returnDeadline : String
  preferredModes : List TransportMode
  deriving DecidableEq, Repr, Inhabited

/-- The `Itinerary` pydantic model. -/
structure Itinerary where
  id : String
  version : Int
  user : UserConstraints
  stops : List Stop
  legs : List Leg
  totalCost : Int
  projectedETA : String
  status : ItineraryStatus
  deriving DecidableEq, Repr, Inhabited

/-- The `DisruptionEvent` pydantic model.  `affectedModes` is a list of raw
strings in the source (`Optional[List[str]]`), compared against the legs'
mode literals. -/
structure DisruptionEvent where
  id : String
  type : DisruptionType
  severity : Severity
  affectedRoutes : Option (List String)
  affectedModes : Option (List String)
  affectedStopId : Option String
  delayMinutes : Option Int
  timestamp : String
  source : String
  deriving DecidableEq, Repr, Inhabited

/-- The `ReplanRequest` pydantic model. -/
structure ReplanRequest where
  itinerary : Itinerary
  disruption : DisruptionEvent
  deriving DecidableEq, Repr, Inhabited

/-- Matrix read `m[i][j]`, defaulting to 0 out of range. -/
def mat (m : List (List Int)) (i j : Nat) : Int :=
  (m.getD i []).getD j 0

/-- Sum of matrix entries along the consecutive pairs of a route. -/
def pathSum (m : List (List Int)) : List Nat → Int
  | a :: b :: rest => mat m a b + pathSum m (b :: rest)
  | _ => 0

/-- Sum of `costCents` over a list of legs. -/
def legsCost (legs : List Leg) : Int :=
  (legs.map Leg.costCents).sum

/-- Python truthiness of `delayMinutes` (`if event.delayMinutes:`):
`None` and `0` are falsy. -/
def intTruthy : Option Int → Bool
  | some d => d != 0
  | none => false

-- ── Step 1: apply_disruption (elastic_replan.py lines 138-175) ──

/-- Per-leg body of the `TRANSIT_DELAY` / `LINE_CANCELLATION` loop
(lines 145-155).  Mode-matching legs are disabled first; a route-key match
also disables; the delay is added only to legs whose mode matches *and*
which are still available at that point. -/
def disruptLeg (event : DisruptionEvent) (leg : Leg) : Leg :=
  let affectedModes := event.affectedModes.getD []
  let affectedRoutes := event.affectedRoutes.getD []
  let leg1 := if leg.mode.str ∈ affectedModes then { leg with available := false } else leg
  let routeKey := leg1.fromStopId ++ "->" ++ leg1.toStopId
  let leg2 :=
    if affectedRoutes ≠ [] ∧ routeKey ∈ affectedRoutes then { leg1 with available := false }
    else leg1
  if event.type = .TRANSIT_DELAY ∧ intTruthy event.delayMinutes = true ∧
      leg2.mode.str ∈ affectedModes ∧ leg2.available = true then
    { leg2 with durationSec := leg2.durationSec + event.delayMinutes.getD 0 * 60 }
  else leg2

/-- `apply_disruption` (lines 138-175), as a function on the working copy. -/
def apply_disruption (itin : Itinerary) (event : DisruptionEvent) : Itinerary :=
  match event.type with
  | .TRANSIT_DELAY | .LINE_CANCELLATION =>
    { itin with legs := itin.legs.map (disruptLeg event) }
  | .VENUE_CLOSED =>
    let sid := event.affectedStopId.getD ""
    if sid = "" then itin
    else
      { itin with
        stops := itin.stops.map fun stop =>
          if stop.id = sid ∧ stop.status = .PENDING then
            { stop with status := .DROPPED,
                        dropReason := some ("Venue closed (disruption " ++ event.id ++ ")") }
          else stop,
        legs := itin.legs.map fun leg =>
          if leg.fromStopId = sid ∨ leg.toStopId = sid then { leg with available := false }
          else leg }
  | .WEATHER =>
    if event.severity = .MAJOR ∨ event.severity = .CRITICAL then
      { itin with legs := itin.legs.map fun leg =>
          if leg.mode = .WALKING ∨ leg.mode = .EBIKE then { leg with available := false }
          else leg }
    else itin

-- ── Greedy fallback solver (routing_solver.py lines 100-145) ──

/-- One selection round of the greedy loop (lines 118-129): among indices
`j < n` not yet visited whose cost and time extensions stay within budget
and deadline, pick the one with strictly minimal `time[curr][j]` (first
such index wins ties, matching the strict `<` comparison against the
running best). -/
def greedyPick (n : Nat) (cost time : List (List Int)) (budget deadline : Int)
    (route : List Nat) (curr : Nat) (currCost currTime : Int) : Option Nat :=
  (List.range n).foldl
    (fun best j =>
      if j ∉ route ∧ currCost + mat cost curr j ≤ budget ∧
          currTime + mat time curr j ≤ deadline then
        match best with
        | none => some j
        | some b => if mat time curr j < mat time curr b then some j else some b
      else best)
    none

/-- The greedy `while len(visited) < num_stops` loop (lines 117-138),
fuel-recursive.  The `route` list plays both roles of the source's
`visited` set and `route` list (they always hold the same indices).
Returns the final `(route, curr, curr_cost, curr_time)`. -/
def greedyGo (cost time : List (List Int)) (budget deadline : Int) (n : Nat) :
    Nat → List Nat → Nat → Int → Int → Option (List Nat × Nat × Int × Int)
  | 0, route, curr, currCost, currTime =>
    if route.length < n then none else some (route, curr, currCost, currTime)
  | Nat.succ fuel, route, curr, currCost, currTime =>
    if route.length < n then
      match greedyPick n cost time budget deadline route curr currCost currTime with
      | none => none
      | some j =>
        greedyGo cost time budget deadline n fuel (route ++ [j]) j
          (currCost + mat cost curr j) (currTime + mat time curr j)
    else some (route, curr, currCost, currTime)

/-- `greedy_fallback` (lines 100-145).  After the extension loop, the
source checks that the closing edge back to `start` also fits within
budget and deadline (lines 141-145) and returns the *open* path only in
that case; otherwise `None`. -/
def greedy_fallback (stops : List Stop) (cost time : List (List Int))
    (budget deadline : Int) (start : Nat) : Option (List Nat) :=
  match greedyGo cost time budget deadline stops.length stops.length [start] start 0 0 with
  | none => none
  | some (route, curr, currCost, currTime) =>
    if currCost + mat cost curr start ≤ budget ∧ currTime + mat time curr start ≤ deadline then
      some route
    else none

-- ── CP-SAT model of solve_vrptw (routing_solver.py lines 29-75) ──

/-- The constraint model built by `solve_vrptw`: booleans `x i j` for the
directed edges, arrival times `t i ∈ [0, deadline]`, exactly one outgoing
and one incoming edge per node, `t start = 0`, the conditional time
propagation `x[i,j] ⇒ t[j] ≥ t[i] + time[i][j]`, and the budget cap on
the summed cost of chosen edges.  (The objective of line 75 does not
affect feasibility.) -/
def VrptwSat (n : Nat) (cost time : List (List Int)) (budget deadline : Int)
    (start : Nat) (x : Nat → Nat → Bool) (t : Nat → Int) : Prop :=
  (∀ i, i < n → 0 ≤ t i ∧ t i ≤ deadline) ∧
  t start = 0 ∧
  (∀ i, i < n → ((Finset.range n).filter fun j => j ≠ i ∧ x i j).card = 1) ∧
  (∀ i, i < n → ((Finset.range n).filter fun j => j ≠ i ∧ x j i).card = 1) ∧
  (∀ i j, i < n → j < n → i ≠ j → x i j = true → t i + mat time i j ≤ t j) ∧
  ((((Finset.range n) ×ˢ (Finset.range n)).filter fun p => p.1 ≠ p.2 ∧ x p.1 p.2).sum
      (fun p => mat cost p.1 p.2) ≤ budget)

/-- Type of the primary solver as called by the pipeline
(`solve_vrptw(stops, cost_matrix, time_matrix, budget_cents,
deadline_seconds)`, start index 0). -/
def SolverFn : Type :=
  List Stop → List (List Int) → List (List Int) → Int → Int → Option (List Nat)

/-- Soundness contract of the external CP-SAT solver together with the
route reconstruction of routing_solver.py lines 82-95: apart from the
`num_stops <= 1` early return of lines 26-27, any returned route comes
from a satisfying assignment of the model, has no duplicate indices, and
its consecutive pairs are chosen edges of that assignment. -/
def SolverSound (solve : SolverFn) : Prop :=
  ∀ stops cost time budget deadline r,
    solve stops cost time budget deadline = some r →
    (stops.length ≤ 1 ∧ r = [0]) ∨
    ∃ x t, VrptwSat stops.length cost time budget deadline 0 x t ∧
      r.Nodup ∧
      (∀ p ∈ r.zip r.tail,
        p.1 < stops.length ∧ p.2 < stops.length ∧ p.1 ≠ p.2 ∧ x p.1 p.2 = true)

/-- The solver behaviour on instances whose model is infeasible (CP-SAT
returns `INFEASIBLE`/`UNKNOWN`, line 97 returns `None`); also the stub
used by the solver-fallback test, which patches `solve_vrptw` to always
return `None`. -/
def noneSolver : SolverFn := fun _ _ _ _ _ => none

theorem noneSolver_sound : SolverSound noneSolver := by
  intro stops cost time budget deadline r h
  simp [noneSolver] at h

-- ── Step 5: drop_lowest_priority (elastic_replan.py lines 356-398) ──

/-- Scan of the first pass of `drop_lowest_priority` (lines 368-371):
the greatest index `i` with `1 ≤ i < k` whose stop is `NICE_TO_HAVE`
(`for i in reversed(range(1, len(stops)))`). -/
def lastNiceAux (stops : List Stop) : Nat → Option Nat
  | 0 => none
  | Nat.succ i =>
    if 1 ≤ i ∧ (stops.getD i default).priority = .NICE_TO_HAVE then some i
    else lastNiceAux stops i

/-- Delete row `i` and column `i` from a matrix (lines 387-396). -/
def removeRowCol (m : List (List Int)) (i : Nat) : List (List Int) :=
  (m.eraseIdx i).map fun row => row.eraseIdx i

/-- `drop_lowest_priority` (lines 356-398): drop the greatest-index
`NICE_TO_HAVE` stop at index ≥ 1; failing that, the last stop (index
`len-1`, the first hit of the reversed second pass), still skipping
index 0; with fewer than two stops nothing is droppable.  The dropped
stop is marked `DROPPED` with the fixed reason string. -/
def drop_lowest_priority (stops : List Stop) (c t : List (List Int)) :
    Option Stop × List Stop × List (List Int) × List (List Int) :=
  let dropIdx : Option Nat :=
    match lastNiceAux stops stops.length with
    | some i => some i
    | none => if 2 ≤ stops.length then some (stops.length - 1) else none
  match dropIdx with
  | none => (none, stops, c, t)
  | some i =>
    let d0 := stops.getD i default
    let d1 := { d0 with status := StopStatus.DROPPED,
                        dropReason := some "Removed to satisfy budget/time constraints" }
    (some d1, stops.eraseIdx i, removeRowCol c i, removeRowCol t i)

-- ── Steps 3-5: the solver/drop loop (elastic_replan.py lines 597-639) ──

/-- Python truthiness of the `route_indices` variable: `None` and `[]`
are falsy. -/
def pyTruthy : Option (List Nat) → Bool
  | some (_ :: _) => true
  | _ => false

/-- Result of the solver/drop loop: the final routing stop list and
matrices, the stops dropped by step 5 (in drop order), and the route if
one was found (`some r` exactly when the loop exited via
`if route_indices: break`, hence `r` nonempty). -/
structure LoopResult where
  stops : List Stop
  costM : List (List Int)
  timeM : List (List Int)
  dropped : List Stop
  route : Option (List Nat)
  deriving Repr

/-- The `for iteration in range(max_drop_iterations)` loop of lines
598-639: break on fewer than two stops; try the primary solver, then the
greedy fallback; break on a truthy route; otherwise drop the
lowest-priority stop, shrink the matrices and continue. -/
def solveLoop (solve : SolverFn) :
    Nat → List Stop → List (List Int) → List (List Int) → Int → Int → LoopResult
  | 0, stops, c, t, _, _ => ⟨stops, c, t, [], none⟩
  | Nat.succ fuel, stops, c, t, b, d =>
    if stops.length < 2 then ⟨stops, c, t, [], none⟩
    else
      let r1 := solve stops c t b d
      let r2 := if pyTruthy r1 then r1 else greedy_fallback stops c t b d 0
      if pyTruthy r2 then ⟨stops, c, t, [], r2⟩
      else
        match drop_lowest_priority stops c t with
        | (none, stops1, c1, t1) => ⟨stops1, c1, t1, [], none⟩
        | (some dropped, stops1, c1, t1) =>
          let res := solveLoop solve fuel stops1 c1 t1 b d
          { res with dropped := dropped :: res.dropped }

-- ── Oracles and environment ──

/-- One value of the `leg_details` map built by `fetch_alternatives`
(line 349: `leg_details[(i, j)] = {**result, "mode": mode}`). -/
structure LegDetail where
  costCents : Int
  durationSec : Int
  polyline : String
  available : Bool
  mode : TransportMode
  deriving DecidableEq, Repr, Inhabited

/-- Abstraction of the concurrent matrix fan-out `fetch_alternatives`
(lines 299-351): for the active stops and the preferred modes it yields
the cost matrix, the time matrix and the detail map (`None` for a pair
that is absent, such as the diagonal).  The concrete values depend on
HTTP upstreams or the deterministic mock, so the pipeline theorems
quantify over this oracle. -/
def FetchFn : Type :=
  List Stop → List TransportMode →
    List (List Int) × List (List Int) × (Nat → Nat → Option LegDetail)

/-- Wall-clock dependent inputs of the pipeline: the computed deadline
budget in seconds (lines 568-575: `max(1, deadline - now)`, or 3600 on a
parse error), the ISO rendering of `now + total_duration` (line 744), the
ETA delta computation (lines 699-706), and the per-leg friction scoring
(`predict_friction`, which reads the wall clock and, absent a model
artifact, the process hash seed). -/
structure Env where
  deadlineSec : Int
  etaOf : Int → String
  etaDeltaOf : Int → Int
  frictionOf : Leg → Rat × FrictionLevel

/-- Failure surface of the endpoint: `HTTPException(status_code=422,
detail=...)` raised by the pipeline. -/
inductive ReplanError where
  | unprocessable (detail : String)
  deriving DecidableEq, Repr

/-- The `ItineraryDiff` pydantic model. -/
structure ItineraryDiff where
  droppedStops : List Stop
  newLegs : List Leg
  changedLegs : List Leg
  costDelta : Int
  etaDelta : Int
  deriving DecidableEq, Repr, Inhabited

/-- The `meta` object of the response (line 775-789; wall-clock fields
`pipelineMs` and `stepTimings` elided). -/
structure ReplanMeta where
  solver : String
  stopsDropped : Nat
  version : Int
  deriving DecidableEq, Repr, Inhabited

/-- The response body of `POST /replan`. -/
structure ReplanOutput where
  itinerary : Itinerary
  diff : ItineraryDiff
  meta : ReplanMeta
  deriving DecidableEq, Repr, Inhabited

/-- Default of the `DEMO_SESSION_ID` environment variable (line 57). -/
def DEMO_SESSION : String := "demo-maya-001"

/-- The demo-bypass condition of line 536. -/
def demoCond (req : ReplanRequest) : Prop :=
  req.itinerary.id = DEMO_SESSION ∧ req.disruption.type = .LINE_CANCELLATION

instance (req : ReplanRequest) : Decidable (demoCond req) := by
  unfold demoCond; infer_instance

-- ── Hardcoded demo replan (elastic_replan.py lines 403-517) ──

/-- The fixed e-bike leg of the demo replan (lines 432-442). -/
def ebikeLeg : Leg :=
  { fromStopId := "farmers-market", toStopId := "art-museum", mode := .EBIKE,
    costCents := 500, durationSec := 1200, available := true,
    polyline := some "ier~F~achVcAeAkAy@oAs@qAi@sA_@uAOuA@sAP",
    frictionScore := some (45/100), frictionLevel := some .MEDIUM }

/-- The fixed rideshare leg of the demo replan (lines 443-453). -/
def rideshareLeg : Leg :=
  { fromStopId := "art-museum", toStopId := "home", mode := .RIDESHARE,
    costCents := 750, durationSec := 1500, available := true,
    polyline := some "qmr~Ft_chVdBnCjBjCdBrB~@pA`@fBXrBJpBCnBQlB",
    frictionScore := some (22/100), frictionLevel := some .LOW }

/-- The drop reason of the hard-coded demo replan (line 427). -/
def rooftopReason : String :=
  "Rooftop Bar removed — insufficient budget after e-bike reroute"

/-- `hardcoded_maya_replan` (lines 403-517).  Note lines 470-479: the new
itinerary is emitted with `version + 1` but `status = "ACTIVE"`; the map
geometries of the `_geometries` key (loaded from a JSON asset) are
elided. -/
def hardcoded_maya_replan (itin : Itinerary) : ReplanOutput :=
  let newStops := itin.stops.map fun s =>
    if s.id = "rooftop-bar" then
      { s with status := StopStatus.DROPPED, dropReason := some rooftopReason }
    else s
  let droppedStops := (itin.stops.filter fun s => s.id = "rooftop-bar").map fun s =>
    { s with status := StopStatus.DROPPED, dropReason := some rooftopReason }
  let originalFirstLeg := itin.legs.find? fun l =>
    l.fromStopId = "home" ∧ l.toStopId = "farmers-market"
  let newLegs :=
    (match originalFirstLeg with | some l => [l] | none => []) ++ [ebikeLeg, rideshareLeg]
  let totalCost := legsCost newLegs
  let newItin : Itinerary :=
    { itin with version := itin.version + 1, stops := newStops, legs := newLegs,
                totalCost := totalCost, projectedETA := "19:50",
                status := ItineraryStatus.ACTIVE }
  { itinerary := newItin,
    diff := { droppedStops := droppedStops, newLegs := [ebikeLeg, rideshareLeg],
              changedLegs := [], costDelta := totalCost - itin.totalCost, etaDelta := 5 },
    meta := { solver := "DEMO_HARDCODED", stopsDropped := 1, version := newItin.version } }

-- ── The main pipeline (elastic_replan.py lines 522-790) ──

/-- Stage 2 (line 550): the working stops with `status = PENDING`. -/
def stage2Active (itin1 : Itinerary) : List Stop :=
  itin1.stops.filter fun s => s.status = .PENDING

/-- Last-wins lookup into the `(fromStopId, toStopId)` keyed dict built
from the old itinerary's legs (lines 709-711; a Python dict comprehension
keeps the last leg for a duplicated key). -/
def oldLegLookup (legs : List Leg) (a b : String) : Option Leg :=
  legs.reverse.find? fun l => l.fromStopId = a ∧ l.toStopId = b

/-- Leg construction from the solved route (lines 654-679): for each
consecutive pair of route indices, cost and duration come from the
(current, possibly shrunk) matrices and mode/polyline from the detail
map, defaulting to the first preferred mode and the empty polyline. -/
def buildLegs (route : List Nat) (stopsToRoute : List Stop)
    (cM tM : List (List Int)) (details : Nat → Nat → Option LegDetail)
    (preferred : List TransportMode) : List Leg :=
  (route.zip route.tail).map fun p =>
    let detail := details p.1 p.2
    { fromStopId := (stopsToRoute.getD p.1 default).id,
      toStopId := (stopsToRoute.getD p.2 default).id,
      mode := match detail with
              | some dd => dd.mode
              | none => preferred.headD .WALKING,
      costCents := mat cM p.1 p.2,
      durationSec := mat tM p.1 p.2,
      available := true,
      polyline := some (match detail with | some dd => dd.polyline | none => ""),
      frictionScore := none, frictionLevel := none }

/-- Steps 5.5-7 (lines 681-790): friction scoring on the new legs, diff
computation against the original request itinerary, and assembly of the
new itinerary (version bump, status `REPLANNING`, recomputed totals,
drop statuses reflected on the stop list) and of the `meta` object.
`oldItin` is the untouched request itinerary, `itin1` the working copy
after stage 1. -/
def assembleOutput (env : Env) (oldItin itin1 : Itinerary)
    (details : Nat → Nat → Option LegDetail) (loopRes : LoopResult)
    (routeIndices : List Nat) : ReplanOutput :=
  let initialDropped := itin1.stops.filter fun s =>
    s.status = .DROPPED ∧ s.dropReason.getD "" ≠ ""
  let droppedStops := initialDropped ++ loopRes.dropped
  let newLegs0 := buildLegs routeIndices loopRes.stops loopRes.costM loopRes.timeM details
    itin1.user.preferredModes
  let totalNewCost := pathSum loopRes.costM routeIndices
  let totalNewDuration := pathSum loopRes.timeM routeIndices
  let newLegs := newLegs0.map fun leg =>
    let fr := env.frictionOf leg
    { leg with frictionScore := some fr.1, frictionLevel := some fr.2 }
  let changedLegs := newLegs.filter fun leg =>
    match oldLegLookup oldItin.legs leg.fromStopId leg.toStopId with
    | some oldLeg =>
      if oldLeg.costCents = leg.costCents ∧ oldLeg.durationSec = leg.durationSec ∧
          oldLeg.mode = leg.mode then false else true
    | none => false
  let trulyNewLegs := newLegs.filter fun leg =>
    (oldLegLookup oldItin.legs leg.fromStopId leg.toStopId).isNone
  let droppedIds := droppedStops.map Stop.id
  let newItin : Itinerary :=
    { itin1 with
      version := itin1.version + 1,
      legs := newLegs,
      totalCost := totalNewCost,
      projectedETA := env.etaOf totalNewDuration,
      status := ItineraryStatus.REPLANNING,
      stops := itin1.stops.map fun stop =>
        if stop.id ∈ droppedIds then
          match droppedStops.find? fun d0 => d0.id = stop.id with
          | some m => { stop with status := StopStatus.DROPPED, dropReason := m.dropReason }
          | none => stop
        else stop }
  { itinerary := newItin,
    diff := { droppedStops := droppedStops, newLegs := trulyNewLegs,
              changedLegs := changedLegs,
              costDelta := totalNewCost - oldItin.totalCost,
              etaDelta := env.etaDeltaOf totalNewDuration },
    meta := { solver := if routeIndices ≠ [] then "OR_TOOLS" else "GREEDY",
              stopsDropped := droppedStops.length,
              version := newItin.version } }

/-- The working copy after stage 1 (the `itin` local after line 542). -/
def pipelineItin1 (req : ReplanRequest) : Itinerary :=
  apply_disruption req.itinerary req.disruption

/-- The `active_stops` local of line 550. -/
def pipelineActive (req : ReplanRequest) : List Stop :=
  stage2Active (pipelineItin1 req)

/-- The `(cost_matrix, time_matrix, leg_details)` triple of line 558. -/
def pipelineFetched (fetch : FetchFn) (req : ReplanRequest) :
    List (List Int) × List (List Int) × (Nat → Nat → Option LegDetail) :=
  fetch (pipelineActive req) (pipelineItin1 req).user.preferredModes

/-- The state after the solver/drop loop of lines 597-639
(`max_drop_iterations = len(stops_to_route)`). -/
def pipelineLoop (solve : SolverFn) (fetch : FetchFn) (env : Env)
    (req : ReplanRequest) : LoopResult :=
  solveLoop solve (pipelineActive req).length (pipelineActive req)
    (pipelineFetched fetch req).1 (pipelineFetched fetch req).2.1
    (pipelineItin1 req).user.budgetCents env.deadlineSec

/-- The non-demo path of `replan_itinerary` (lines 540-790): stage 1,
the two-active-stops check with its 422, the matrix fan-out, the
solver/drop loop, the no-route 422, and assembly. -/
def nonDemoReplan (solve : SolverFn) (fetch : FetchFn) (env : Env)
    (req : ReplanRequest) : Except ReplanError ReplanOutput :=
  if (pipelineActive req).length < 2 then
    .error (.unprocessable "Need at least 2 active stops to build an itinerary.")
  else
    match (pipelineLoop solve fetch env req).route with
    | none =>
      .error (.unprocessable
        "Unable to find any feasible route even after dropping all droppable stops.")
    | some routeIndices =>
      .ok (assembleOutput env req.itinerary (pipelineItin1 req)
        (pipelineFetched fetch req).2.2 (pipelineLoop solve fetch env req) routeIndices)

/-- `replan_itinerary` (lines 522-790), parametric in the primary solver,
the fan-out oracle and the wall-clock environment: the demo bypass of
lines 536-538 followed by the seven-stage pipeline. -/
def replan_itinerary (solve : SolverFn) (fetch : FetchFn) (env : Env)
    (req : ReplanRequest) : Except ReplanError ReplanOutput :=
  if demoCond req then .ok (hardcoded_maya_replan req.itinerary)
  else nonDemoReplan solve fetch env req

-- ── Friction scoring (friction_model.py lines 60-67 and 207-227) ──

/-- `classify_friction_level` (lines 60-67). -/
def classify_friction_level (score : Rat) : FrictionLevel :=
  if score < 3/10 then .LOW
  else if score ≤ 7/10 then .MEDIUM
  else .HIGH

/-- `_mock_friction_score` (lines 207-227), parametric in the process
string-hash function `pyhash` (Python's built-in `hash`, which is salted
per process) and the current hour read from the wall clock.  Python's
`% 100` on a possibly negative hash matches `Int.emod`. -/
def mock_friction_score (pyhash : String → Int) (hour : Int)
    (mode : TransportMode) (fromStopId toStopId : String) : Rat :=
  let base : Rat :=
    if mode = .TRANSIT ∧ ((7 ≤ hour ∧ hour ≤ 9) ∨ (17 ≤ hour ∧ hour ≤ 19)) then 55/100
    else if mode = .EBIKE then 25/100
    else if mode = .RIDESHARE then 35/100
    else 15/100
  let hashVal : Int := pyhash (fromStopId ++ toStopId) % 100
  let variation : Rat := ((hashVal : Rat) - 50) * (4/1000)
  max 0 (min 1 (base + variation))

-- ── Heap model of the endpoint's mutation discipline ──

/-- A heap of itinerary objects; references are list indices.  The
endpoint receives the request itinerary as a reference into this store.
New objects (`model_copy(deep=True)`) are allocated by appending; the
in-place mutations of the working copy are writes at its reference. -/
abbrev Store : Type := List Itinerary

/-- The demo bypass condition on an itinerary object and an event. -/
def demoCondOn (itin : Itinerary) (event : DisruptionEvent) : Prop :=
  itin.id = DEMO_SESSION ∧ event.type = .LINE_CANCELLATION

instance (itin : Itinerary) (event : DisruptionEvent) : Decidable (demoCondOn itin event) := by
  unfold demoCondOn; infer_instance

/-- The drop loop mutates the status and drop reason of the stop objects
it pops, which are aliases of the working copy's stop objects
(`stops_to_route = list(active_stops)`, `active_stops` drawn from
`itin.stops`); this function reflects those writes back onto the working
copy's stop list (object identity tracked through stop ids). -/
def applyLoopDrops (itin1 : Itinerary) (dropped : List Stop) : Itinerary :=
  { itin1 with stops := itin1.stops.map fun s =>
      match dropped.find? fun d0 => d0.id = s.id with
      | some m => { s with status := StopStatus.DROPPED, dropReason := m.dropReason }
      | none => s }

/-- `replan_itinerary` with object mutation made explicit: the request
itinerary lives at `reqRef` in the store; line 529 allocates a deep copy
at a fresh reference and every subsequent in-place mutation (stage 1's
leg/stop marking, the drop loop's stop mutations, the assembly writes on
the second deep copy of line 740) is a store write at a freshly
allocated reference.  Returns the response (or error) and the final
store. -/
def replanStateful (solve : SolverFn) (fetch : FetchFn) (env : Env)
    (st0 : Store) (reqRef : Nat) (event : DisruptionEvent) :
    Except ReplanError ReplanOutput × Store :=
  if demoCondOn (st0.getD reqRef default) event then
    (.ok (hardcoded_maya_replan (st0.getD reqRef default)),
     st0 ++ [st0.getD reqRef default])
  else if (pipelineActive ⟨st0.getD reqRef default, event⟩).length < 2 then
    (.error (.unprocessable "Need at least 2 active stops to build an itinerary."),
     (st0 ++ [st0.getD reqRef default]).set st0.length
       (pipelineItin1 ⟨st0.getD reqRef default, event⟩))
  else
    match (pipelineLoop solve fetch env ⟨st0.getD reqRef default, event⟩).route with
    | none =>
      (.error (.unprocessable
        "Unable to find any feasible route even after dropping all droppable stops."),
       ((st0 ++ [st0.getD reqRef default]).set st0.length
           (pipelineItin1 ⟨st0.getD reqRef default, event⟩)).set st0.length
         (applyLoopDrops (pipelineItin1 ⟨st0.getD reqRef default, event⟩)
           (pipelineLoop solve fetch env ⟨st0.getD reqRef default, event⟩).dropped))
    | some routeIndices =>
      (.ok (assembleOutput env (st0.getD reqRef default)
          (pipelineItin1 ⟨st0.getD reqRef default, event⟩)
          (pipelineFetched fetch ⟨st0.getD reqRef default, event⟩).2.2
          (pipelineLoop solve fetch env ⟨st0.getD reqRef default, event⟩) routeIndices),
       (((st0 ++ [st0.getD reqRef default]).set st0.length
             (pipelineItin1 ⟨st0.getD reqRef default, event⟩)).set st0.length
           (applyLoopDrops (pipelineItin1 ⟨st0.getD reqRef default, event⟩)
             (pipelineLoop solve fetch env ⟨st0.getD reqRef default, event⟩).dropped)) ++
         [(assembleOutput env (st0.getD reqRef default)
             (pipelineItin1 ⟨st0.getD reqRef default, event⟩)
             (pipelineFetched fetch ⟨st0.getD reqRef default, event⟩).2.2
             (pipelineLoop solve fetch env ⟨st0.getD reqRef default, event⟩)
             routeIndices).itinerary])

-- ── Concrete fixtures used by counterexamples and witnesses ──

/-- Build a pending stop with the given id and priority. -/
def mkStop (id : String) (priority : StopPriority) : Stop :=
  { id := id, name := id, priority := priority, status := .PENDING, dropReason := none }

/-- An environment with trivial wall-clock abstractions. -/
def trivEnv : Env :=
  { deadlineSec := 3600, etaOf := fun _ => "", etaDeltaOf := fun _ => 0,
    frictionOf := fun _ => (0, .LOW) }

/-- A fan-out oracle returning empty matrices (never consulted on the
paths that use it). -/
def emptyFetch : FetchFn := fun _ _ => ([], [], fun _ _ => none)

/-- A demo-session request with a 100-cent budget, hitting the
hard-coded bypass. -/
def demoReq : ReplanRequest :=
  { itinerary :=
      { id := DEMO_SESSION, version := 1,
        user := { budgetCents := 100, returnDeadline := "2025-06-01T20:00:00Z",
                  preferredModes := [.TRANSIT] },
        stops := [mkStop "home" .MUST_VISIT, mkStop "farmers-market" .MUST_VISIT,
                  mkStop "rooftop-bar" .NICE_TO_HAVE],
        legs := [], totalCost := 0, projectedETA := "2025-06-01T18:00:00Z",
        status := .ACTIVE },
    disruption :=
      { id := "evt-demo", type := .LINE_CANCELLATION, severity := .CRITICAL,
        affectedRoutes := none, affectedModes := some ["TRANSIT"],
        affectedStopId := none, delayMinutes := none,
        timestamp := "2025-06-01T17:00:00Z", source := "DEMO_INJECT" } }

/-- Three routing stops: a `NICE_TO_HAVE` at index 0 followed by two
`MUST_VISIT` stops. -/
def stops3 : List Stop :=
  [mkStop "n0" .NICE_TO_HAVE, mkStop "m1" .MUST_VISIT, mkStop "m2" .MUST_VISIT]

/-- A 3×3 zero cost matrix. -/
def cost3 : List (List Int) := [[0, 0, 0], [0, 0, 0], [0, 0, 0]]

/-- A 3×3 time matrix on which the greedy extension completes as
0 → 1 → 2 but the closing edge 2 → 0 (200 s) overshoots a 160 s
deadline. -/
def time3 : List (List Int) := [[0, 60, 200], [60, 0, 100], [200, 100, 0]]

/-- A request whose itinerary carries `stops3` (non-demo id). -/
def reqC6 : ReplanRequest :=
  { itinerary :=
      { id := "itin-c6", version := 1,
        user := { budgetCents := 1000, returnDeadline := "2025-06-01T20:00:00Z",
                  preferredModes := [.TRANSIT] },
        stops := stops3, legs := [], totalCost := 0,
        projectedETA := "2025-06-01T18:00:00Z", status := .ACTIVE },
    disruption :=
      { id := "evt-c6", type := .TRANSIT_DELAY, severity := .MAJOR,
        affectedRoutes := none, affectedModes := none, affectedStopId := none,
        delayMinutes := some 15, timestamp := "2025-06-01T17:00:00Z",
        source := "DEMO_INJECT" } }

/-- Fan-out oracle producing `cost3`/`time3` for `reqC6`. -/
def fetchC6 : FetchFn := fun _ _ => (cost3, time3, fun _ _ => none)

/-- Environment with the 160 s deadline budget for `reqC6`. -/
def envC6 : Env := { trivEnv with deadlineSec := 160 }

/-- A simple two-stop request on which the greedy fallback succeeds. -/
def req2 : ReplanRequest :=
  { itinerary :=
      { id := "itin-two", version := 1,
        user := { budgetCents := 1000, returnDeadline := "2025-06-01T20:00:00Z",
                  preferredModes := [.TRANSIT] },
        stops := [mkStop "a" .MUST_VISIT, mkStop "b" .MUST_VISIT],
        legs := [], totalCost := 0, projectedETA := "2025-06-01T18:00:00Z",
        status := .ACTIVE },
    disruption :=
      { id := "evt-two", type := .TRANSIT_DELAY, severity := .MAJOR,
        affectedRoutes := none, affectedModes := none, affectedStopId := none,
        delayMinutes := none, timestamp := "2025-06-01T17:00:00Z",
        source := "DEMO_INJECT" } }

/-- Fan-out oracle for `req2`: a symmetric 10-cent, 60-second pair. -/
def fetch2 : FetchFn := fun _ _ => ([[0, 10], [10, 0]], [[0, 60], [60, 0]], fun _ _ => none)

-- ── Lemmas on stage 1 ──

/-- The per-leg disruption transform never changes a leg's duration: the
delay branch of lines 153-155 requires the leg to still be available,
but a mode-matching leg was just disabled by line 147, and a
non-mode-matching leg fails the mode test of line 154. -/
theorem disruptLeg_durationSec (e : DisruptionEvent) (l : Leg) :
    (disruptLeg e l).durationSec = l.durationSec := by
  simp only [disruptLeg]
  split_ifs <;> simp_all

/-- The per-leg disruption transform never changes a leg's mode. -/
theorem disruptLeg_mode (e : DisruptionEvent) (l : Leg) :
    (disruptLeg e l).mode = l.mode := by
  simp only [disruptLeg]
  split_ifs <;> simp_all

/-- A leg whose mode is among the affected modes ends up unavailable. -/
theorem disruptLeg_available_of_mode (e : DisruptionEvent) (l : Leg)
    (h : l.mode.str ∈ e.affectedModes.getD []) :
    (disruptLeg e l).available = false := by
  simp only [disruptLeg]
  split_ifs <;> simp_all

/-- Stage 1 acts only on `stops` and `legs`. -/
theorem apply_disruption_user (itin : Itinerary) (e : DisruptionEvent) :
    (apply_disruption itin e).user = itin.user := by
  obtain ⟨eid, ty, sev, ar, am, asid, dm, ts, src⟩ := e
  cases ty <;> simp only [apply_disruption] <;>
    first
    | rfl
    | (split_ifs <;> rfl)

/-- Stage 1 does not change the version. -/
theorem apply_disruption_version (itin : Itinerary) (e : DisruptionEvent) :
    (apply_disruption itin e).version = itin.version := by
  obtain ⟨eid, ty, sev, ar, am, asid, dm, ts, src⟩ := e
  cases ty <;> simp only [apply_disruption] <;>
    first
    | rfl
    | (split_ifs <;> rfl)

/-- Stage 1 does not change the itinerary id. -/
theorem apply_disruption_id (itin : Itinerary) (e : DisruptionEvent) :
    (apply_disruption itin e).id = itin.id := by
  obtain ⟨eid, ty, sev, ar, am, asid, dm, ts, src⟩ := e
  cases ty <;> simp only [apply_disruption] <;>
    first
    | rfl
    | (split_ifs <;> rfl)

-- ── Lemmas on the greedy fallback ──

/-- `pathSum` as a sum over the consecutive pairs of the route. -/
theorem pathSum_eq_zip_sum (m : List (List Int)) (r : List Nat) :
    pathSum m r = ((r.zip r.tail).map fun p => mat m p.1 p.2).sum := by
  induction r with
  | nil => rfl
  | cons a l ih =>
    cases l with
    | nil => rfl
    | cons b t =>
      simp only [pathSum, List.tail_cons, List.zip_cons_cons, List.map_cons, List.sum_cons]
      rw [ih]
      rfl

/-- Appending one node to a nonempty route adds one edge to the path sum. -/
theorem pathSum_append_single (m : List (List Int)) :
    ∀ (l : List Nat) (c : Nat) (j : Nat), l.getLast? = some c →
      pathSum m (l ++ [j]) = pathSum m l + mat m c j := by
  intro l
  induction l with
  | nil => intro c j h; simp at h
  | cons a t ih =>
    intro c j h
    cases t with
    | nil =>
      simp only [List.getLast?_singleton, Option.some.injEq] at h
      subst h
      simp [pathSum]
    | cons b t' =>
      rw [List.getLast?_cons_cons] at h
      have := ih c j h
      simp only [List.cons_append, List.append_eq, pathSum] at this ⊢
      rw [this]
      ring

/-- A duplicate-free list of naturals below `n` has length at most `n`. -/
theorem nodup_lt_length_le (r : List Nat) (n : Nat) (hnd : r.Nodup)
    (hlt : ∀ a ∈ r, a < n) : r.length ≤ n := by
  have hsub : r.toFinset ⊆ Finset.range n := by
    intro a ha
    rw [List.mem_toFinset] at ha
    exact Finset.mem_range.2 (hlt a ha)
  have := Finset.card_le_card hsub
  rwa [List.toFinset_card_of_nodup hnd, Finset.card_range] at this

/-- A duplicate-free list of `n` naturals below `n` contains each of them. -/
theorem nodup_length_eq_mem (r : List Nat) (n : Nat) (hnd : r.Nodup)
    (hlt : ∀ a ∈ r, a < n) (hlen : r.length = n) : ∀ i, i < n → i ∈ r := by
  intro i hi
  have hsub : r.toFinset ⊆ Finset.range n := by
    intro a ha
    rw [List.mem_toFinset] at ha
    exact Finset.mem_range.2 (hlt a ha)
  have hcard : (Finset.range n).card ≤ r.toFinset.card := by
    rw [List.toFinset_card_of_nodup hnd, hlen, Finset.card_range]
  have heq := Finset.eq_of_subset_of_card_le hsub hcard
  have : i ∈ r.toFinset := by rw [heq]; exact Finset.mem_range.2 hi
  exact List.mem_toFinset.1 this

/-- Soundness of the greedy selection round: a picked index is in range,
unvisited and admissible for both constraints. -/
theorem greedyPick_sound (n : Nat) (cost time : List (List Int)) (budget deadline : Int)
    (route : List Nat) (curr : Nat) (currCost currTime : Int) (j : Nat)
    (h : greedyPick n cost time budget deadline route curr currCost currTime = some j) :
    j < n ∧ j ∉ route ∧ currCost + mat cost curr j ≤ budget ∧
      currTime + mat time curr j ≤ deadline := by
  unfold greedyPick at h
  have key : ∀ (l : List Nat) (acc : Option Nat),
      (∀ b, acc = some b →
        b < n ∧ b ∉ route ∧ currCost + mat cost curr b ≤ budget ∧
          currTime + mat time curr b ≤ deadline) →
      (∀ a ∈ l, a < n) →
      ∀ j0, l.foldl
        (fun best j1 =>
          if j1 ∉ route ∧ currCost + mat cost curr j1 ≤ budget ∧
              currTime + mat time curr j1 ≤ deadline then
            match best with
            | none => some j1
            | some b => if mat time curr j1 < mat time curr b then some j1 else some b
          else best) acc = some j0 →
        j0 < n ∧ j0 ∉ route ∧ currCost + mat cost curr j0 ≤ budget ∧
          currTime + mat time curr j0 ≤ deadline := by
    intro l
    induction l with
    | nil =>
      intro acc hacc _ j0 h0
      exact hacc j0 h0
    | cons a l ih =>
      intro acc hacc hlt j0 h0
      rw [List.foldl_cons] at h0
      refine ih _ ?_ (fun a' ha' => hlt a' (List.mem_cons_of_mem _ ha')) j0 h0
      intro b hb
      by_cases hadm : a ∉ route ∧ currCost + mat cost curr a ≤ budget ∧
          currTime + mat time curr a ≤ deadline
      · rw [if_pos hadm] at hb
        cases acc with
        | none =>
          have hab : a = b := by
            have hb' : some a = some b := hb
            exact Option.some.inj hb'
          subst hab
          exact ⟨hlt a (List.mem_cons_self _ _), hadm⟩
        | some b0 =>
          by_cases hcmp : mat time curr a < mat time curr b0
          · have hb' : some a = some b := by
              have : (if mat time curr a < mat time curr b0 then some a else some b0) =
                  some b := hb
              rwa [if_pos hcmp] at this
            have hab : a = b := Option.some.inj hb'
            subst hab
            exact ⟨hlt a (List.mem_cons_self _ _), hadm⟩
          · have hb' : some b0 = some b := by
              have : (if mat time curr a < mat time curr b0 then some a else some b0) =
                  some b := hb
              rwa [if_neg hcmp] at this
            exact hacc b hb'
      · rw [if_neg hadm] at hb
        exact hacc b hb
  exact key (List.range n) none (by intro b hb; cases hb)
    (fun a ha => List.mem_range.1 ha) j h

/-- Invariant of the greedy extension loop: from a well-formed partial
route it produces a duplicate-free route of exactly `n` in-range indices
extending it, whose accumulated cost and time are the path sums, and
(once at least one extension happened) both accumulators are within
budget and deadline. -/
theorem greedyGo_sound (cost time : List (List Int)) (budget deadline : Int) (n : Nat) :
    ∀ (fuel : Nat) (route : List Nat) (curr : Nat) (cc ct : Int)
      (r : List Nat) (curr' : Nat) (cc' ct' : Int),
      greedyGo cost time budget deadline n fuel route curr cc ct = some (r, curr', cc', ct') →
      route ≠ [] → route.Nodup → (∀ a ∈ route, a < n) →
      route.getLast? = some curr →
      cc = pathSum cost route → ct = pathSum time route →
      (∃ s, r = route ++ s) ∧ r.Nodup ∧ (∀ a ∈ r, a < n) ∧ r.length = n ∧
        r.getLast? = some curr' ∧ cc' = pathSum cost r ∧ ct' = pathSum time r ∧
        ((cc' ≤ budget ∧ ct' ≤ deadline) ∨ (r = route ∧ cc' = cc ∧ ct' = ct)) := by
  intro fuel
  induction fuel with
  | zero =>
    intro route curr cc ct r curr' cc' ct' h hne hnd hlt hlast hcc hct
    unfold greedyGo at h
    split_ifs at h
    simp only [Option.some.injEq, Prod.mk.injEq] at h
    obtain ⟨hr, hcurr, hc, ht⟩ := h
    subst hr; subst hcurr; subst hc; subst ht
    refine ⟨⟨[], by simp⟩, hnd, hlt, ?_, hlast, hcc, hct, Or.inr ⟨rfl, rfl, rfl⟩⟩
    exact le_antisymm (nodup_lt_length_le _ _ hnd hlt) (not_lt.1 (by assumption))
  | succ fuel ih =>
    intro route curr cc ct r curr' cc' ct' h hne hnd hlt hlast hcc hct
    unfold greedyGo at h
    split_ifs at h with hlen
    · match hpick : greedyPick n cost time budget deadline route curr cc ct with
      | none => rw [hpick] at h; cases h
      | some j =>
        rw [hpick] at h
        obtain ⟨hjn, hjnot, hjc, hjt⟩ := greedyPick_sound n cost time budget deadline
          route curr cc ct j hpick
        have hnd' : (route ++ [j]).Nodup := by
          rw [List.nodup_append]
          exact ⟨hnd, List.nodup_singleton _, by
            intro a ha hb
            rw [List.mem_singleton] at hb
            subst hb
            exact hjnot ha⟩
        have hlt' : ∀ a ∈ route ++ [j], a < n := by
          intro a ha
          rcases List.mem_append.1 ha with h1 | h2
          · exact hlt a h1
          · rw [List.mem_singleton] at h2; subst h2; exact hjn
        obtain ⟨⟨s, hs⟩, hnd2, hlt2, hlen2, hlast2, hcc2, hct2, hb2⟩ :=
          ih (route ++ [j]) j (cc + mat cost curr j) (ct + mat time curr j)
            r curr' cc' ct' h (by simp) hnd' hlt' (List.getLast?_concat _)
            (by rw [hcc, pathSum_append_single cost route curr j hlast])
            (by rw [hct, pathSum_append_single time route curr j hlast])
        refine ⟨⟨[j] ++ s, by rw [hs, List.append_assoc]⟩, hnd2, hlt2, hlen2, hlast2,
          hcc2, hct2, Or.inl ?_⟩
        rcases hb2 with hb2 | ⟨hr, hc, ht⟩
        · exact hb2
        · constructor
          · rw [hc, hcc]; rw [hcc] at hjc; exact hjc
          · rw [ht, hct]; rw [hct] at hjt; exact hjt
    · simp only [Option.some.injEq, Prod.mk.injEq] at h
      obtain ⟨hr, hcurr, hc, ht⟩ := h
      subst hr; subst hcurr; subst hc; subst ht
      refine ⟨⟨[], by simp⟩, hnd, hlt, ?_, hlast, hcc, hct, Or.inr ⟨rfl, rfl, rfl⟩⟩
      exact le_antisymm (nodup_lt_length_le _ _ hnd hlt) (not_lt.1 hlen)

/-- Soundness of `greedy_fallback`: a returned route starts at `start`,
visits every index below `n` exactly once (`n ≥ 2` stops), keeps the
accumulated cost within budget and the accumulated time within deadline,
and — the closure check of lines 141-145 — the edge back to `start`
would also fit in both. -/
theorem greedy_fallback_props (stops : List Stop) (cost time : List (List Int))
    (budget deadline : Int) (start : Nat) (r : List Nat)
    (h2 : 2 ≤ stops.length) (hs : start < stops.length)
    (h : greedy_fallback stops cost time budget deadline start = some r) :
    r.head? = some start ∧ r.Nodup ∧ r.length = stops.length ∧
      (∀ i, i < stops.length → i ∈ r) ∧
      pathSum cost r ≤ budget ∧ pathSum time r ≤ deadline ∧
      pathSum cost r + mat cost (r.getLastD 0) start ≤ budget ∧
      pathSum time r + mat time (r.getLastD 0) start ≤ deadline := by
  unfold greedy_fallback at h
  match hgo : greedyGo cost time budget deadline stops.length stops.length [start] start 0 0 with
  | none =>
    rw [hgo] at h
    exact absurd h (by simp)
  | some (route, curr, cc, ct) =>
    rw [hgo] at h
    have h' : (if cc + mat cost curr start ≤ budget ∧ ct + mat time curr start ≤ deadline then
        some route else none) = some r := h
    split_ifs at h' with hclose
    simp only [Option.some.injEq] at h'
    subst h'
    obtain ⟨⟨s, hs'⟩, hnd, hlt, hlen, hlast, hcc, hct, hb⟩ :=
      greedyGo_sound cost time budget deadline stops.length stops.length [start] start 0 0
        route curr cc ct hgo (by simp) (List.nodup_singleton _)
        (by intro a ha; rw [List.mem_singleton] at ha; subst ha; exact hs)
        rfl rfl rfl
    have hhead : route.head? = some start := by
      rw [hs']; rfl
    have hlastD : route.getLastD 0 = curr := by
      rw [List.getLastD_eq_getLast?, hlast]; rfl
    have hbounds : cc ≤ budget ∧ ct ≤ deadline := by
      rcases hb with hb | ⟨hr, hc, ht⟩
      · exact hb
      · exfalso
        rw [hr] at hlen
        simp only [List.length_singleton] at hlen
        omega
    refine ⟨hhead, hnd, hlen, nodup_length_eq_mem _ _ hnd hlt hlen, ?_, ?_, ?_, ?_⟩
    · rw [← hcc]; exact hbounds.1
    · rw [← hct]; exact hbounds.2
    · rw [← hcc, hlastD]; exact hclose.1
    · rw [← hct, hlastD]; exact hclose.2

-- ── Matrix lemmas ──

/-- All entries of a matrix are non-negative.  Every path of the route
oracle yields a non-negative cost (`max(0, ...)` in `_mock_leg_data`,
a distance times a non-negative rate in `_estimate_cost`); the theorems
that need this take it as a hypothesis on the fan-out oracle. -/
def NonnegMat (m : List (List Int)) : Prop :=
  ∀ row ∈ m, ∀ v ∈ row, 0 ≤ v

theorem mat_nonneg (m : List (List Int)) (h : NonnegMat m) (i j : Nat) :
    0 ≤ mat m i j := by
  unfold mat
  by_cases hi : i < m.length
  · have hrow : m.getD i [] ∈ m := by
      rw [List.getD_eq_getElem m [] hi]
      exact List.getElem_mem hi
    by_cases hj : j < (m.getD i []).length
    · have hv : (m.getD i []).getD j 0 ∈ m.getD i [] := by
        rw [List.getD_eq_getElem _ 0 hj]
        exact List.getElem_mem hj
      exact h _ hrow _ hv
    · rw [List.getD_eq_default _ 0 (not_lt.1 hj)]
  · rw [List.getD_eq_default m [] (not_lt.1 hi)]
    simp

theorem removeRowCol_nonneg (m : List (List Int)) (i : Nat) (h : NonnegMat m) :
    NonnegMat (removeRowCol m i) := by
  intro row hrow v hv
  unfold removeRowCol at hrow
  obtain ⟨row0, hrow0, rfl⟩ := List.mem_map.1 hrow
  exact h row0 ((List.eraseIdx_sublist m i).subset hrow0) v
    ((List.eraseIdx_sublist row0 i).subset hv)

-- ── Index lemmas on lists ──

/-- An element of a list either survives `eraseIdx k` or sits at index
`k`. -/
theorem mem_eraseIdx_or {α : Type} [Inhabited α] :
    ∀ (l : List α) (k : Nat) (x : α), x ∈ l →
      x ∈ l.eraseIdx k ∨ (k < l.length ∧ x = l.getD k default) := by
  intro l
  induction l with
  | nil => intro k x hx; cases hx
  | cons a t ih =>
    intro k x hx
    cases k with
    | zero =>
      rcases List.mem_cons.1 hx with rfl | hx'
      · exact Or.inr ⟨Nat.succ_pos _, rfl⟩
      · exact Or.inl (by simpa [List.eraseIdx] using hx')
    | succ k' =>
      rcases List.mem_cons.1 hx with rfl | hx'
      · exact Or.inl (List.mem_cons_self _ _)
      · rcases ih k' x hx' with h1 | ⟨h2, h3⟩
        · exact Or.inl (List.mem_cons_of_mem _ h1)
        · exact Or.inr ⟨Nat.succ_lt_succ h2, h3⟩

/-- An element of a list's tail sits at some index `k ≥ 1`. -/
theorem mem_tail_index {α : Type} [Inhabited α] (l : List α) (x : α)
    (hx : x ∈ l.tail) :
    ∃ k, 1 ≤ k ∧ k < l.length ∧ l.getD k default = x := by
  cases l with
  | nil => cases hx
  | cons a t =>
    simp only [List.tail_cons] at hx
    obtain ⟨⟨j, hj⟩, hget⟩ := List.mem_iff_get.1 hx
    refine ⟨j + 1, Nat.le_add_left _ _, Nat.succ_lt_succ hj, ?_⟩
    show t.getD j default = x
    rw [List.getD_eq_getElem t default hj]
    simpa [List.get_eq_getElem] using hget

-- ── Lemmas on drop_lowest_priority ──

theorem lastNiceAux_none (stops : List Stop) :
    ∀ k, lastNiceAux stops k = none →
      ∀ i, 1 ≤ i → i < k → (stops.getD i default).priority ≠ .NICE_TO_HAVE := by
  intro k
  induction k with
  | zero => intro _ i _ hik; omega
  | succ k ih =>
    intro h i h1 hik
    unfold lastNiceAux at h
    split_ifs at h with hcond
    rcases Nat.lt_succ_iff_lt_or_eq.1 hik with hlt | rfl
    · exact ih h i h1 hlt
    · intro hp
      exact hcond ⟨h1, hp⟩

theorem lastNiceAux_some (stops : List Stop) :
    ∀ k i, lastNiceAux stops k = some i →
      1 ≤ i ∧ i < k ∧ (stops.getD i default).priority = .NICE_TO_HAVE := by
  intro k
  induction k with
  | zero => intro i h; cases h
  | succ k ih =>
    intro i h
    unfold lastNiceAux at h
    split_ifs at h with hcond
    · have : k = i := Option.some.inj h
      subst this
      exact ⟨hcond.1, Nat.lt_succ_self _, hcond.2⟩
    · obtain ⟨h1, h2, h3⟩ := ih i h
      exact ⟨h1, Nat.lt_succ_of_lt h2, h3⟩

/-- Shape of a successful drop: the dropped stop sits at an index
`1 ≤ i < len`, the stop list loses that index, both matrices lose row
and column `i`, and a `MUST_VISIT` drop certifies that no index ≥ 1
holds a `NICE_TO_HAVE` stop. -/
theorem drop_some_shape (stops : List Stop) (c t : List (List Int))
    (d : Stop) (stops' : List Stop) (c' t' : List (List Int))
    (h : drop_lowest_priority stops c t = (some d, stops', c', t')) :
    ∃ i, 1 ≤ i ∧ i < stops.length ∧ stops' = stops.eraseIdx i ∧
      c' = removeRowCol c i ∧ t' = removeRowCol t i ∧
      d.id = (stops.getD i default).id ∧
      d.priority = (stops.getD i default).priority ∧
      d.status = .DROPPED ∧
      d.dropReason = some "Removed to satisfy budget/time constraints" ∧
      (d.priority = .MUST_VISIT →
        ∀ k, 1 ≤ k → k < stops.length →
          (stops.getD k default).priority ≠ .NICE_TO_HAVE) := by
  unfold drop_lowest_priority at h
  match hlast : lastNiceAux stops stops.length with
  | some i =>
    rw [hlast] at h
    obtain ⟨h1, h2, h3⟩ := lastNiceAux_some stops stops.length i hlast
    simp only [Prod.mk.injEq, Option.some.injEq] at h
    obtain ⟨hd, hstops, hc, ht⟩ := h
    refine ⟨i, h1, h2, hstops.symm, hc.symm, ht.symm, ?_, ?_, ?_, ?_, ?_⟩
    · rw [← hd]
    · rw [← hd]
    · rw [← hd]
    · rw [← hd]
    · intro hmust
      rw [← hd] at hmust
      simp only at hmust
      rw [h3] at hmust
      cases hmust
  | none =>
    rw [hlast] at h
    split_ifs at h with hlen
    · simp only [Prod.mk.injEq, Option.some.injEq] at h
      obtain ⟨hd, hstops, hc, ht⟩ := h
      refine ⟨stops.length - 1, by omega, by omega, hstops.symm, hc.symm, ht.symm,
        ?_, ?_, ?_, ?_, ?_⟩
      · rw [← hd]
      · rw [← hd]
      · rw [← hd]
      · rw [← hd]
      · intro _ k hk1 hk2
        exact lastNiceAux_none stops stops.length hlast k hk1 hk2
    · simp at h

-- ── Lemmas on the solver/drop loop ──

theorem pyTruthy_iff (o : Option (List Nat)) :
    pyTruthy o = true ↔ ∃ a l, o = some (a :: l) := by
  cases o with
  | none => simp [pyTruthy]
  | some l =>
    cases l with
    | nil => simp [pyTruthy]
    | cons a l => simp [pyTruthy]

/-- Unfolding equation for the recursive case of the loop, with the two
local bindings of the body expanded. -/
theorem solveLoop_succ_eq (solve : SolverFn) (fuel : Nat) (stops : List Stop)
    (c t : List (List Int)) (b d : Int) :
    solveLoop solve (fuel + 1) stops c t b d =
      if stops.length < 2 then ⟨stops, c, t, [], none⟩
      else if pyTruthy (if pyTruthy (solve stops c t b d) = true then solve stops c t b d
          else greedy_fallback stops c t b d 0) = true then
        ⟨stops, c, t, [],
          if pyTruthy (solve stops c t b d) = true then solve stops c t b d
          else greedy_fallback stops c t b d 0⟩
      else
        match drop_lowest_priority stops c t with
        | (none, stops1, c1, t1) => ⟨stops1, c1, t1, [], none⟩
        | (some dropped, stops1, c1, t1) =>
          ⟨(solveLoop solve fuel stops1 c1 t1 b d).stops,
            (solveLoop solve fuel stops1 c1 t1 b d).costM,
            (solveLoop solve fuel stops1 c1 t1 b d).timeM,
            dropped :: (solveLoop solve fuel stops1 c1 t1 b d).dropped,
            (solveLoop solve fuel stops1 c1 t1 b d).route⟩ := rfl

/-- A route handed out of the loop is nonempty. -/
theorem solveLoop_route_ne_nil (solve : SolverFn) :
    ∀ (fuel : Nat) (stops : List Stop) (c t : List (List Int)) (b d : Int)
      (r : List Nat),
      (solveLoop solve fuel stops c t b d).route = some r → r ≠ [] := by
  intro fuel
  induction fuel with
  | zero => intro stops c t b d r h; cases h
  | succ fuel ih =>
    intro stops c t b d r h
    rw [solveLoop_succ_eq] at h
    by_cases hlen : stops.length < 2
    · rw [if_pos hlen] at h; cases h
    · rw [if_neg hlen] at h
      by_cases htr : pyTruthy (if pyTruthy (solve stops c t b d) = true then
          solve stops c t b d else greedy_fallback stops c t b d 0) = true
      · rw [if_pos htr] at h
        simp only at h
        obtain ⟨a, l, hal⟩ := (pyTruthy_iff _).1 htr
        rw [hal] at h
        have : a :: l = r := Option.some.inj h
        rw [← this]
        simp
      · rw [if_neg htr] at h
        match hdr : drop_lowest_priority stops c t with
        | (none, stops1, c1, t1) =>
          rw [hdr] at h
          exact Option.noConfusion h
        | (some dropped, stops1, c1, t1) =>
          rw [hdr] at h
          exact ih stops1 c1 t1 b d r h

/-- When the loop hands out a route, its final stop list has at least
two stops and the route was produced, on the final matrices, either by
the primary solver or (after the primary returned a falsy result) by the
greedy fallback. -/
theorem solveLoop_route_src (solve : SolverFn) :
    ∀ (fuel : Nat) (stops : List Stop) (c t : List (List Int)) (b d : Int)
      (r : List Nat),
      (solveLoop solve fuel stops c t b d).route = some r →
      2 ≤ (solveLoop solve fuel stops c t b d).stops.length ∧
        (solve (solveLoop solve fuel stops c t b d).stops
            (solveLoop solve fuel stops c t b d).costM
            (solveLoop solve fuel stops c t b d).timeM b d = some r ∨
          greedy_fallback (solveLoop solve fuel stops c t b d).stops
            (solveLoop solve fuel stops c t b d).costM
            (solveLoop solve fuel stops c t b d).timeM b d 0 = some r) := by
  intro fuel
  induction fuel with
  | zero => intro stops c t b d r h; cases h
  | succ fuel ih =>
    intro stops c t b d r h
    rw [solveLoop_succ_eq] at h ⊢
    by_cases hlen : stops.length < 2
    · rw [if_pos hlen] at h; cases h
    · rw [if_neg hlen] at h ⊢
      by_cases htr : pyTruthy (if pyTruthy (solve stops c t b d) = true then
          solve stops c t b d else greedy_fallback stops c t b d 0) = true
      · rw [if_pos htr] at h ⊢
        simp only at h ⊢
        constructor
        · omega
        · by_cases h1 : pyTruthy (solve stops c t b d) = true
          · rw [if_pos h1] at h
            exact Or.inl h
          · rw [if_neg h1] at h
            exact Or.inr h
      · rw [if_neg htr] at h ⊢
        match hdr : drop_lowest_priority stops c t with
        | (none, stops1, c1, t1) =>
          rw [hdr] at h
          exact Option.noConfusion h
        | (some dropped, stops1, c1, t1) =>
          rw [hdr] at h
          exact ih stops1 c1 t1 b d r h

/-- The loop's final cost matrix only ever shrinks the initial one, so
entrywise non-negativity is preserved. -/
theorem solveLoop_nonneg (solve : SolverFn) :
    ∀ (fuel : Nat) (stops : List Stop) (c t : List (List Int)) (b d : Int),
      NonnegMat c → NonnegMat (solveLoop solve fuel stops c t b d).costM := by
  intro fuel
  induction fuel with
  | zero => intro stops c t b d hc; exact hc
  | succ fuel ih =>
    intro stops c t b d hc
    rw [solveLoop_succ_eq]
    by_cases hlen : stops.length < 2
    · rw [if_pos hlen]; exact hc
    · rw [if_neg hlen]
      by_cases htr : pyTruthy (if pyTruthy (solve stops c t b d) = true then
          solve stops c t b d else greedy_fallback stops c t b d 0) = true
      · rw [if_pos htr]; exact hc
      · rw [if_neg htr]
        match hdr : drop_lowest_priority stops c t with
        | (none, stops1, c1, t1) =>
          obtain rfl : c1 = c := by
            unfold drop_lowest_priority at hdr
            split at hdr <;> simp_all
          exact hc
        | (some dropped, stops1, c1, t1) =>
          obtain ⟨i, _, _, _, hc1, _⟩ := drop_some_shape stops c t dropped stops1 c1 t1 hdr
          simp only
          exact ih stops1 c1 t1 b d (hc1 ▸ removeRowCol_nonneg c i hc)

/-- Priority discipline of the drop loop, away from index 0: if the loop
drops a `MUST_VISIT` stop, then every `NICE_TO_HAVE` stop of the routing
list at an index ≥ 1 is also among the dropped (a stop at routing index 0
is skipped by both passes of `drop_lowest_priority` and is never
dropped). -/
theorem solveLoop_priority (solve : SolverFn) :
    ∀ (fuel : Nat) (stops : List Stop) (c t : List (List Int)) (b d : Int),
      ∀ s ∈ (solveLoop solve fuel stops c t b d).dropped, s.priority = .MUST_VISIT →
        ∀ s' ∈ stops.tail, s'.priority = .NICE_TO_HAVE →
          s'.id ∈ (solveLoop solve fuel stops c t b d).dropped.map Stop.id := by
  intro fuel
  induction fuel with
  | zero =>
    intro stops c t b d s hs
    exact absurd hs (List.not_mem_nil s)
  | succ fuel ih =>
    intro stops c t b d
    rw [solveLoop_succ_eq]
    by_cases hlen : stops.length < 2
    · rw [if_pos hlen]
      intro s hs
      exact absurd hs (List.not_mem_nil s)
    · rw [if_neg hlen]
      by_cases htr : pyTruthy (if pyTruthy (solve stops c t b d) = true then
          solve stops c t b d else greedy_fallback stops c t b d 0) = true
      · rw [if_pos htr]
        intro s hs
        exact absurd hs (List.not_mem_nil s)
      · rw [if_neg htr]
        match hdr : drop_lowest_priority stops c t with
        | (none, stops1, c1, t1) =>
          intro s hs
          exact absurd hs (List.not_mem_nil s)
        | (some dropped, stops1, c1, t1) =>
          intro s hs hmust s' hs' hnice
          obtain ⟨i, hi1, hi2, hstops1, _, _, hid, hprio, _, _, hmustnice⟩ :=
            drop_some_shape stops c t dropped stops1 c1 t1 hdr
          show s'.id ∈ (dropped :: (solveLoop solve fuel stops1 c1 t1 b d).dropped).map Stop.id
          have hs2 : s ∈ dropped :: (solveLoop solve fuel stops1 c1 t1 b d).dropped := hs
          rcases List.mem_cons.1 hs2 with rfl | hsrec
          · exfalso
            obtain ⟨k, hk1, hk2, hkget⟩ := mem_tail_index stops s' hs'
            exact hmustnice hmust k hk1 hk2 (by rw [hkget]; exact hnice)
          · cases stops with
            | nil => exact absurd hi2 (by simp)
            | cons s0 tl =>
              cases i with
              | zero => omega
              | succ i' =>
                have hs'tl : s' ∈ tl := hs'
                rcases mem_eraseIdx_or tl i' s' hs'tl with hsurvive | ⟨hlt', hgetd⟩
                · have hstops1tail : s' ∈ stops1.tail := by
                    rw [hstops1]
                    simpa [List.eraseIdx] using hsurvive
                  have := ih stops1 c1 t1 b d s hsrec hmust s' hstops1tail hnice
                  simp only [List.map_cons]
                  exact List.mem_cons_of_mem _ this
                · have hsid : s'.id = dropped.id := by
                    rw [hid]
                    show s'.id = (((s0 :: tl).getD (i' + 1) default)).id
                    have : (s0 :: tl).getD (i' + 1) default = tl.getD i' default := rfl
                    rw [this, ← hgetd]
                  simp only [List.map_cons, hsid]
                  exact List.mem_cons_self _ _

-- ── Lemmas on the CP-SAT model ──

/-- Infeasibility core used by claim C10: when every edge into the start
node takes positive time, the start's single mandatory incoming edge
contradicts `t start = 0`. -/
theorem vrptw_unsat (n : Nat) (cost time : List (List Int)) (budget deadline : Int)
    (start : Nat) (hs : start < n)
    (hpos : ∀ i, i < n → i ≠ start → 0 < mat time i start) :
    ¬ ∃ x t, VrptwSat n cost time budget deadline start x t := by
  rintro ⟨x, t, hbound, hstart, hout, hin, hprop, hbudget⟩
  have hcard := hin start hs
  obtain ⟨a, ha⟩ := Finset.card_eq_one.1 hcard
  have hamem : a ∈ (Finset.range n).filter (fun j => j ≠ start ∧ x j start) := by
    rw [ha]; exact Finset.mem_singleton_self a
  rw [Finset.mem_filter, Finset.mem_range] at hamem
  have han := hamem.1
  have hane := hamem.2.1
  have hax := hamem.2.2
  have h1 := hprop a start han hs hane hax
  have h2 := (hbound a han).1
  have h3 := hpos a han hane
  rw [hstart] at h1
  omega

/-- The consecutive pairs of a duplicate-free route are pairwise
distinct. -/
theorem zip_tail_nodup : ∀ (r : List Nat), r.Nodup → (r.zip r.tail).Nodup := by
  intro r
  induction r with
  | nil => intro _; simp
  | cons a l ih =>
    intro hnd
    cases l with
    | nil => simp
    | cons b t =>
      rw [List.tail_cons, List.zip_cons_cons]
      rw [List.nodup_cons]
      constructor
      · intro hmem
        have : a ∈ b :: t := (List.of_mem_zip hmem).1
        exact (List.nodup_cons.1 hnd).1 this
      · exact ih (List.nodup_cons.1 hnd).2

/-- Open-path budget bound for the CP-SAT model: a duplicate-free walk
along chosen edges of a satisfying assignment costs at most the summed
cost of all chosen edges, hence at most the budget (cost entries
non-negative). -/
theorem vrptw_route_cost (n : Nat) (cost time : List (List Int)) (budget deadline : Int)
    (x : Nat → Nat → Bool) (tt : Nat → Int)
    (hsat : VrptwSat n cost time budget deadline 0 x tt) (hnn : NonnegMat cost)
    (r : List Nat) (hnd : r.Nodup)
    (hpairs : ∀ p ∈ r.zip r.tail,
      p.1 < n ∧ p.2 < n ∧ p.1 ≠ p.2 ∧ x p.1 p.2 = true) :
    pathSum cost r ≤ budget := by
  obtain ⟨_, _, _, _, _, hbudget⟩ := hsat
  rw [pathSum_eq_zip_sum]
  have hPnd : (r.zip r.tail).Nodup := zip_tail_nodup r hnd
  have hsub : (r.zip r.tail).toFinset ⊆
      ((Finset.range n) ×ˢ (Finset.range n)).filter fun p => p.1 ≠ p.2 ∧ x p.1 p.2 := by
    intro p hp
    rw [List.mem_toFinset] at hp
    obtain ⟨h1, h2, h3, h4⟩ := hpairs p hp
    rw [Finset.mem_filter, Finset.mem_product, Finset.mem_range, Finset.mem_range]
    exact ⟨⟨h1, h2⟩, h3, by rw [h4]⟩
  calc ((r.zip r.tail).map fun p => mat cost p.1 p.2).sum
      = (r.zip r.tail).toFinset.sum (fun p => mat cost p.1 p.2) :=
        (List.sum_toFinset _ hPnd).symm
    _ ≤ (((Finset.range n) ×ˢ (Finset.range n)).filter
          fun p => p.1 ≠ p.2 ∧ x p.1 p.2).sum (fun p => mat cost p.1 p.2) :=
        Finset.sum_le_sum_of_subset_of_nonneg hsub
          (fun p _ _ => mat_nonneg cost hnn p.1 p.2)
    _ ≤ budget := hbudget

-- ── Lemmas gluing the pipeline together ──

/-- The legs built from the route carry exactly the matrix costs along
its consecutive pairs. -/
theorem legsCost_buildLegs (route : List Nat) (stopsToRoute : List Stop)
    (cM tM : List (List Int)) (details : Nat → Nat → Option LegDetail)
    (preferred : List TransportMode) :
    legsCost (buildLegs route stopsToRoute cM tM details preferred) = pathSum cM route := by
  unfold legsCost buildLegs
  rw [pathSum_eq_zip_sum, List.map_map]
  rfl

/-- Friction scoring only fills the friction fields; leg costs are
untouched. -/
theorem legsCost_friction_map (env : Env) (legs : List Leg) :
    legsCost (legs.map fun leg =>
      { leg with frictionScore := some (env.frictionOf leg).1,
                 frictionLevel := some (env.frictionOf leg).2 }) = legsCost legs := by
  unfold legsCost
  rw [List.map_map]
  rfl

/-- Inversion of a successful non-demo run: the active-stop check
passed, the loop produced a route and the output is the assembly. -/
theorem nonDemoReplan_ok (solve : SolverFn) (fetch : FetchFn) (env : Env)
    (req : ReplanRequest) (out : ReplanOutput)
    (h : nonDemoReplan solve fetch env req = .ok out) :
    ¬ (pipelineActive req).length < 2 ∧
      ∃ r, (pipelineLoop solve fetch env req).route = some r ∧
        out = assembleOutput env req.itinerary (pipelineItin1 req)
          (pipelineFetched fetch req).2.2 (pipelineLoop solve fetch env req) r := by
  unfold nonDemoReplan at h
  split_ifs at h with hlen
  match hroute : (pipelineLoop solve fetch env req).route with
  | none => rw [hroute] at h; cases h
  | some r =>
    rw [hroute] at h
    refine ⟨hlen, r, rfl, ?_⟩
    have := Except.ok.inj h
    rw [← this]

/-- Legs of the assembled itinerary: the built legs with friction fields
filled in. -/
theorem assembleOutput_legs (env : Env) (oldItin itin1 : Itinerary)
    (details : Nat → Nat → Option LegDetail) (loopRes : LoopResult) (r : List Nat) :
    (assembleOutput env oldItin itin1 details loopRes r).itinerary.legs =
      (buildLegs r loopRes.stops loopRes.costM loopRes.timeM details
          itin1.user.preferredModes).map fun leg =>
        { leg with frictionScore := some (env.frictionOf leg).1,
                   frictionLevel := some (env.frictionOf leg).2 } := rfl

/-- Total cost of the assembled itinerary: the path sum over the final
cost matrix. -/
theorem assembleOutput_totalCost (env : Env) (oldItin itin1 : Itinerary)
    (details : Nat → Nat → Option LegDetail) (loopRes : LoopResult) (r : List Nat) :
    (assembleOutput env oldItin itin1 details loopRes r).itinerary.totalCost =
      pathSum loopRes.costM r := rfl

/-- Version of the assembled itinerary. -/
theorem assembleOutput_version (env : Env) (oldItin itin1 : Itinerary)
    (details : Nat → Nat → Option LegDetail) (loopRes : LoopResult) (r : List Nat) :
    (assembleOutput env oldItin itin1 details loopRes r).itinerary.version =
      itin1.version + 1 := rfl

/-- Status of the assembled itinerary. -/
theorem assembleOutput_status (env : Env) (oldItin itin1 : Itinerary)
    (details : Nat → Nat → Option LegDetail) (loopRes : LoopResult) (r : List Nat) :
    (assembleOutput env oldItin itin1 details loopRes r).itinerary.status =
      .REPLANNING := rfl

/-- Solver tag of the assembled response (line 777 of the source). -/
theorem assembleOutput_solver (env : Env) (oldItin itin1 : Itinerary)
    (details : Nat → Nat → Option LegDetail) (loopRes : LoopResult) (r : List Nat) :
    (assembleOutput env oldItin itin1 details loopRes r).meta.solver =
      if r ≠ [] then "OR_TOOLS" else "GREEDY" := rfl

-- ── Store lemmas ──

/-- Writing one cell leaves every other cell unchanged. -/
theorem getD_set_ne {α : Type} (l : List α) (i j : Nat) (a d : α) (h : i ≠ j) :
    (l.set i a).getD j d = l.getD j d := by
  rw [List.getD_eq_getElem?_getD, List.getD_eq_getElem?_getD, List.getElem?_set_ne h]

/-- Allocation at the end leaves every existing cell unchanged. -/
theorem getD_append_lt {α : Type} (l l' : List α) (j : Nat) (d : α)
    (h : j < l.length) : (l ++ l').getD j d = l.getD j d :=
  List.getD_append l l' d j h

-- ── Claim theorems ──

/-- C1: under a `TRANSIT_DELAY` event, stage 1 never increases any leg's
`durationSec` — the delay branch of lines 153-155 is unreachable because
line 147 disables every mode-matching leg first — and every leg whose
mode is in `affectedModes` ends up `available = false`.  This is the
code's actual behaviour, diverging from the claim (which expects the
duration to grow by `delayMinutes · 60` while availability is kept for
legs outside `affectedRoutes`). -/
theorem claim1_transit_delay_disables_never_delays (itin : Itinerary)
    (event : DisruptionEvent) (h : event.type = .TRANSIT_DELAY) :
    (apply_disruption itin event).legs.map Leg.durationSec =
      itin.legs.map Leg.durationSec ∧
    ∀ l ∈ (apply_disruption itin event).legs,
      l.mode.str ∈ event.affectedModes.getD [] → l.available = false := by
  have hlegs : (apply_disruption itin event).legs = itin.legs.map (disruptLeg event) := by
    unfold apply_disruption
    rw [h]
  constructor
  · rw [hlegs, List.map_map]
    simp [Function.comp, disruptLeg_durationSec]
  · intro l hl hmode
    rw [hlegs] at hl
    obtain ⟨l0, hl0, rfl⟩ := List.mem_map.1 hl
    rw [disruptLeg_mode] at hmode
    exact disruptLeg_available_of_mode event l0 hmode

/-- A transit leg used by the claim C1 witness. -/
def legT : Leg :=
  { fromStopId := "home", toStopId := "market", mode := .TRANSIT, costCents := 300,
    durationSec := 600, available := true, polyline := none, frictionScore := none,
    frictionLevel := none }

/-- An itinerary with one transit leg, used by the claim C1 witness. -/
def itinDelay : Itinerary :=
  { id := "itin-delay", version := 1,
    user := { budgetCents := 5000, returnDeadline := "2025-06-01T20:00:00Z",
              preferredModes := [.TRANSIT] },
    stops := [mkStop "home" .MUST_VISIT, mkStop "market" .MUST_VISIT],
    legs := [legT], totalCost := 300, projectedETA := "2025-06-01T18:00:00Z",
    status := .ACTIVE }

/-- A `TRANSIT_DELAY` event affecting the `TRANSIT` mode with a 15-minute
delay, used by the claim C1 witness. -/
def eventDelay : DisruptionEvent :=
  { id := "evt-delay", type := .TRANSIT_DELAY, severity := .MAJOR,
    affectedRoutes := none, affectedModes := some ["TRANSIT"], affectedStopId := none,
    delayMinutes := some 15, timestamp := "2025-06-01T17:00:00Z",
    source := "DEMO_INJECT" }

theorem claim1_witness :
    (apply_disruption itinDelay eventDelay).legs.map Leg.durationSec =
      itinDelay.legs.map Leg.durationSec ∧
    ∀ l ∈ (apply_disruption itinDelay eventDelay).legs,
      l.mode.str ∈ eventDelay.affectedModes.getD [] → l.available = false :=
  claim1_transit_delay_disables_never_delays itinDelay eventDelay rfl

/-- C2 counterexample: on a 3-stop instance (budget 1000, deadline 160)
the greedy extension loop completes the full open path `[0, 1, 2]` with
every step admissible (final accumulators cost 0, time 160), yet
`greedy_fallback` returns `none` because the closing edge `2 → 0`
(200 s) overshoots the deadline — contradicting the claim that the open
path is returned with no closing-edge requirement. -/
theorem claim2_counterexample :
    greedyGo cost3 time3 1000 160 3 3 [0] 0 0 0 = some ([0, 1, 2], 2, 0, 160) ∧
    greedy_fallback stops3 cost3 time3 1000 160 0 = none :=
  ⟨rfl, rfl⟩

/-- C2 (amended): the greedy fallback returns a route only if, in
addition to every extension step being admissible, the closing edge back
to `start` also keeps the accumulated cost within budget and the
accumulated time within deadline; in that case it returns the open path
(start first, every index exactly once, closing edge checked but not
appended). -/
theorem claim2_greedy_requires_closing_edge (stops : List Stop)
    (cost time : List (List Int)) (budget deadline : Int) (start : Nat) (r : List Nat)
    (h2 : 2 ≤ stops.length) (hs : start < stops.length)
    (h : greedy_fallback stops cost time budget deadline start = some r) :
    r.head? = some start ∧ r.Nodup ∧ r.length = stops.length ∧
      (∀ i, i < stops.length → i ∈ r) ∧
      pathSum cost r ≤ budget ∧ pathSum time r ≤ deadline ∧
      pathSum cost r + mat cost (r.getLastD 0) start ≤ budget ∧
      pathSum time r + mat time (r.getLastD 0) start ≤ deadline :=
  greedy_fallback_props stops cost time budget deadline start r h2 hs h

/-- Two `MUST_VISIT` stops used by witnesses. -/
def stops2W : List Stop := [mkStop "a" .MUST_VISIT, mkStop "b" .MUST_VISIT]

theorem claim2_witness :
    greedy_fallback stops2W [[0, 10], [10, 0]] [[0, 60], [60, 0]] 100 200 0 =
      some [0, 1] ∧
    ([0, 1].head? = some 0 ∧ [0, 1].Nodup ∧ [0, 1].length = stops2W.length ∧
      (∀ i, i < stops2W.length → i ∈ [0, 1]) ∧
      pathSum [[0, 10], [10, 0]] [0, 1] ≤ 100 ∧
      pathSum [[0, 60], [60, 0]] [0, 1] ≤ 200 ∧
      pathSum [[0, 10], [10, 0]] [0, 1] +
        mat [[0, 10], [10, 0]] ([0, 1].getLastD 0) 0 ≤ 100 ∧
      pathSum [[0, 60], [60, 0]] [0, 1] +
        mat [[0, 60], [60, 0]] ([0, 1].getLastD 0) 0 ≤ 200) :=
  ⟨rfl, claim2_greedy_requires_closing_edge stops2W [[0, 10], [10, 0]]
    [[0, 60], [60, 0]] 100 200 0 [0, 1] (by decide) (by decide) rfl⟩

/-- C7: the mock friction score is not determined by the leg inputs
alone — it feeds the endpoint ids through the process string hash
(Python's `hash`, salted per process), so two processes whose hashes of
`"homemarket"` differ modulo 100 produce different scores for the same
rideshare leg at the same hour (0.15 versus 0.39 here), contradicting
cross-process determinism. -/
theorem claim7_mock_friction_hash_dependent :
    mock_friction_score (fun _ => 0) 12 .RIDESHARE "home" "market" ≠
      mock_friction_score (fun _ => 60) 12 .RIDESHARE "home" "market" := by
  have e1 : mock_friction_score (fun _ => 0) 12 .RIDESHARE "home" "market" = 3/20 := by
    unfold mock_friction_score
    rw [if_neg (by simp), if_neg (by simp), if_pos rfl]
    norm_num
  have e2 : mock_friction_score (fun _ => 60) 12 .RIDESHARE "home" "market" = 39/100 := by
    unfold mock_friction_score
    rw [if_neg (by simp), if_neg (by simp), if_pos rfl]
    norm_num
  rw [e1, e2]
  norm_num

/-- C10: when every edge into the start node takes positive time, the
CP-SAT model of `solve_vrptw` is infeasible — the mandatory incoming
edge at the start, the conditional time propagation, `t[start] = 0` and
`t[i] ≥ 0` contradict — so (for the pipeline's `start = 0`) every sound
solver returns `none` on such matrices and any emitted route comes from
the greedy fallback. -/
theorem claim10_vrptw_infeasible_forces_greedy (n : Nat)
    (cost time : List (List Int)) (budget deadline : Int) (start : Nat)
    (hn : 2 ≤ n) (hs : start < n)
    (hpos : ∀ i, i < n → i ≠ start → 0 < mat time i start) :
    (¬ ∃ x t, VrptwSat n cost time budget deadline start x t) ∧
    (start = 0 → ∀ solve : SolverFn, SolverSound solve →
      ∀ stops : List Stop, stops.length = n →
        solve stops cost time budget deadline = none) := by
  refine ⟨vrptw_unsat n cost time budget deadline start hs hpos, ?_⟩
  rintro rfl solve hsound stops hlen
  match hres : solve stops cost time budget deadline with
  | none => rfl
  | some r =>
    exfalso
    rcases hsound stops cost time budget deadline r hres with ⟨hle, _⟩ | ⟨x, t, hsat, _⟩
    · omega
    · exact vrptw_unsat n cost time budget deadline 0 hs hpos ⟨x, t, hlen ▸ hsat⟩

theorem claim10_witness :
    ¬ ∃ x t, VrptwSat 2 [[0, 1], [1, 0]] [[0, 5], [7, 0]] 100 100 0 x t :=
  (claim10_vrptw_infeasible_forces_greedy 2 [[0, 1], [1, 0]] [[0, 5], [7, 0]]
    100 100 0 (by decide) (by decide) (by decide)).1

/-- C3 counterexample: a demo-session request with a 100-cent budget
succeeds through the hard-coded bypass with `totalCost = 1250`, so the
budget invariant does not hold on the demo path. -/
theorem claim3_counterexample :
    (replan_itinerary noneSolver emptyFetch trivEnv demoReq).toOption.map
        (fun o => (o.itinerary.totalCost, o.itinerary.user.budgetCents)) =
      some (1250, 100) ∧ ¬ ((1250 : Int) ≤ 100) :=
  ⟨rfl, by decide⟩

/-- C3 (amended): on every successful *non-demo* replan (with the
external CP-SAT solver sound for its model and the fan-out producing
non-negative costs), the returned `totalCost` equals the sum of the leg
costs and that sum is within the user's budget; the hard-coded demo
bypass still reports `totalCost` as the sum of its legs but is exempt
from the budget bound. -/
theorem claim3_budget_amended :
    (∀ (solve : SolverFn) (fetch : FetchFn) (env : Env) (req : ReplanRequest)
        (out : ReplanOutput), SolverSound solve →
        (∀ stops modes, NonnegMat (fetch stops modes).1) →
        ¬ demoCond req →
        replan_itinerary solve fetch env req = .ok out →
        out.itinerary.totalCost = legsCost out.itinerary.legs ∧
          legsCost out.itinerary.legs ≤ req.itinerary.user.budgetCents) ∧
    (∀ itin : Itinerary,
      (hardcoded_maya_replan itin).itinerary.totalCost =
        legsCost (hardcoded_maya_replan itin).itinerary.legs) := by
  constructor
  · intro solve fetch env req out hsound hfetch hdemo h
    unfold replan_itinerary at h
    rw [if_neg hdemo] at h
    obtain ⟨hlen2, r, hroute, hout⟩ := nonDemoReplan_ok solve fetch env req out h
    subst hout
    constructor
    · rw [assembleOutput_totalCost, assembleOutput_legs, legsCost_friction_map,
        legsCost_buildLegs]
    · rw [assembleOutput_legs, legsCost_friction_map, legsCost_buildLegs]
      have hsrc := solveLoop_route_src solve (pipelineActive req).length
        (pipelineActive req) (pipelineFetched fetch req).1 (pipelineFetched fetch req).2.1
        (pipelineItin1 req).user.budgetCents env.deadlineSec r hroute
      have hnn : NonnegMat (pipelineLoop solve fetch env req).costM :=
        solveLoop_nonneg solve (pipelineActive req).length (pipelineActive req)
          (pipelineFetched fetch req).1 (pipelineFetched fetch req).2.1
          (pipelineItin1 req).user.budgetCents env.deadlineSec (hfetch _ _)
      have huser : (pipelineItin1 req).user = req.itinerary.user :=
        apply_disruption_user _ _
      have hsrc1 : 2 ≤ (pipelineLoop solve fetch env req).stops.length := hsrc.1
      rcases hsrc.2 with hsolve | hgreedy
      · rcases hsound (pipelineLoop solve fetch env req).stops
            (pipelineLoop solve fetch env req).costM
            (pipelineLoop solve fetch env req).timeM
            (pipelineItin1 req).user.budgetCents env.deadlineSec r hsolve with
          ⟨hle, _⟩ | ⟨x, tvar, hsat, hnd, hpairs⟩
        · omega
        · have hb := vrptw_route_cost (pipelineLoop solve fetch env req).stops.length
            (pipelineLoop solve fetch env req).costM
            (pipelineLoop solve fetch env req).timeM
            (pipelineItin1 req).user.budgetCents env.deadlineSec x tvar hsat hnn
            r hnd hpairs
          rwa [huser] at hb
      · have hp := greedy_fallback_props (pipelineLoop solve fetch env req).stops
          (pipelineLoop solve fetch env req).costM
          (pipelineLoop solve fetch env req).timeM
          (pipelineItin1 req).user.budgetCents env.deadlineSec 0 r hsrc1
          (by omega) hgreedy
        have hb := hp.2.2.2.2.1
        rwa [huser] at hb
  · intro itin
    rfl

/-- The concrete successful non-demo run shared by the C3/C4/C5
witnesses: primary solver stubbed to `None` (its model is infeasible on
`fetch2`'s matrices, whose return edges all take positive time), so the
route comes from the greedy fallback. -/
def outReq2 : ReplanOutput :=
  (replan_itinerary noneSolver fetch2 trivEnv req2).toOption.getD default

theorem claim3_witness :
    replan_itinerary noneSolver fetch2 trivEnv req2 = .ok outReq2 ∧
    (outReq2.itinerary.totalCost = legsCost outReq2.itinerary.legs ∧
      legsCost outReq2.itinerary.legs ≤ req2.itinerary.user.budgetCents) :=
  ⟨rfl, claim3_budget_amended.1 noneSolver fetch2 trivEnv req2 outReq2 noneSolver_sound
    (fun _ _ => show NonnegMat [[(0 : Int), 10], [10, 0]] from by unfold NonnegMat; decide)
    (by decide) rfl⟩

/-- C4 counterexample: the demo bypass emits the new itinerary with
`version + 1` but `status = ACTIVE` (line 478), not `REPLANNING`. -/
theorem claim4_counterexample :
    (replan_itinerary noneSolver emptyFetch trivEnv demoReq).toOption.map
        (fun o => (o.itinerary.version, o.itinerary.status)) =
      some (2, ItineraryStatus.ACTIVE) ∧
    ItineraryStatus.ACTIVE ≠ ItineraryStatus.REPLANNING :=
  ⟨rfl, by decide⟩

/-- C4 (amended): every successful replan returns `version + 1`; the
non-demo pipeline sets status `REPLANNING`, while the demo bypass sets
status `ACTIVE`. -/
theorem claim4_version_status (solve : SolverFn) (fetch : FetchFn) (env : Env)
    (req : ReplanRequest) (out : ReplanOutput)
    (h : replan_itinerary solve fetch env req = .ok out) :
    out.itinerary.version = req.itinerary.version + 1 ∧
    (¬ demoCond req → out.itinerary.status = .REPLANNING) ∧
    (demoCond req → out.itinerary.status = .ACTIVE) := by
  by_cases hdemo : demoCond req
  · unfold replan_itinerary at h
    rw [if_pos hdemo] at h
    have hout : out = hardcoded_maya_replan req.itinerary := (Except.ok.inj h).symm
    subst hout
    exact ⟨rfl, fun hno => absurd hdemo hno, fun _ => rfl⟩
  · unfold replan_itinerary at h
    rw [if_neg hdemo] at h
    obtain ⟨_, r, hroute, hout⟩ := nonDemoReplan_ok solve fetch env req out h
    subst hout
    refine ⟨?_, fun _ => assembleOutput_status _ _ _ _ _ _, fun hd => absurd hd hdemo⟩
    rw [assembleOutput_version]
    unfold pipelineItin1
    rw [apply_disruption_version]

theorem claim4_witness :
    replan_itinerary noneSolver fetch2 trivEnv req2 = .ok outReq2 ∧
    (outReq2.itinerary.version = req2.itinerary.version + 1 ∧
      (¬ demoCond req2 → outReq2.itinerary.status = .REPLANNING) ∧
      (demoCond req2 → outReq2.itinerary.status = .ACTIVE)) :=
  ⟨rfl, claim4_version_status noneSolver fetch2 trivEnv req2 outReq2 rfl⟩

/-- C5: on every successful non-demo replan the response's `meta.solver`
is `"OR_TOOLS"` — line 777 computes `"OR_TOOLS" if route_indices else
"GREEDY"`, but at that point `route_indices` is the found (nonempty)
route, so the `"GREEDY"` tag is unreachable even when the greedy
fallback produced the route; no distinct greedy tag is ever reported. -/
theorem claim5_solver_tag_always_or_tools (solve : SolverFn) (fetch : FetchFn)
    (env : Env) (req : ReplanRequest) (out : ReplanOutput)
    (hdemo : ¬ demoCond req)
    (h : replan_itinerary solve fetch env req = .ok out) :
    out.meta.solver = "OR_TOOLS" := by
  unfold replan_itinerary at h
  rw [if_neg hdemo] at h
  obtain ⟨_, r, hroute, hout⟩ := nonDemoReplan_ok solve fetch env req out h
  subst hout
  rw [assembleOutput_solver, if_pos]
  exact solveLoop_route_ne_nil solve _ _ _ _ _ _ r hroute

theorem claim5_witness :
    replan_itinerary noneSolver fetch2 trivEnv req2 = .ok outReq2 ∧
    outReq2.meta.solver = "OR_TOOLS" :=
  ⟨rfl, claim5_solver_tag_always_or_tools noneSolver fetch2 trivEnv req2 outReq2
    (by decide) rfl⟩

/-- C8: on a non-demo request, if after stage 1 fewer than two stops are
`PENDING`, the pipeline fails with the 422 `need at least two active
stops` error; the result holds for *every* fan-out oracle and every
solver, so neither is consulted. -/
theorem claim8_need_two_active_stops (solve : SolverFn) (fetch : FetchFn) (env : Env)
    (req : ReplanRequest) (hdemo : ¬ demoCond req)
    (hlt : ((apply_disruption req.itinerary req.disruption).stops.filter
        (fun s => s.status = .PENDING)).length < 2) :
    replan_itinerary solve fetch env req =
      .error (.unprocessable "Need at least 2 active stops to build an itinerary.") := by
  unfold replan_itinerary
  rw [if_neg hdemo]
  unfold nonDemoReplan
  rw [if_pos (show (pipelineActive req).length < 2 from hlt)]

/-- A one-active-stop request used by the C8 witness. -/
def reqOne : ReplanRequest :=
  { itinerary :=
      { id := "itin-one", version := 1,
        user := { budgetCents := 1000, returnDeadline := "2025-06-01T20:00:00Z",
                  preferredModes := [.TRANSIT] },
        stops := [mkStop "solo" .MUST_VISIT], legs := [], totalCost := 0,
        projectedETA := "2025-06-01T18:00:00Z", status := .ACTIVE },
    disruption :=
      { id := "evt-one", type := .TRANSIT_DELAY, severity := .MAJOR,
        affectedRoutes := none, affectedModes := none, affectedStopId := none,
        delayMinutes := none, timestamp := "2025-06-01T17:00:00Z",
        source := "DEMO_INJECT" } }

theorem claim8_witness :
    (¬ demoCond reqOne) ∧
    ((apply_disruption reqOne.itinerary reqOne.disruption).stops.filter
        (fun s => s.status = .PENDING)).length < 2 ∧
    replan_itinerary noneSolver emptyFetch trivEnv reqOne =
      .error (.unprocessable "Need at least 2 active stops to build an itinerary.") :=
  ⟨by decide, by decide,
    claim8_need_two_active_stops noneSolver emptyFetch trivEnv reqOne (by decide) (by decide)⟩

/-- C6 counterexample: on `reqC6` (a `NICE_TO_HAVE` stop at routing
index 0 followed by two `MUST_VISIT` stops, CP-SAT infeasible on these
matrices so the primary solver returns `None`, greedy infeasible on the
3-stop instance but feasible after one drop) the pipeline succeeds
having dropped the `MUST_VISIT` stop `m2` while the `NICE_TO_HAVE` stop
`n0` is still `PENDING` in the output — both passes of
`drop_lowest_priority` skip index 0. -/
theorem claim6_counterexample :
    (replan_itinerary noneSolver fetchC6 envC6 reqC6).toOption.map
        (fun o => (o.diff.droppedStops.map fun s => (s.id, s.priority),
          o.itinerary.stops.map fun s => (s.id, s.priority, s.status))) =
      some ([("m2", StopPriority.MUST_VISIT)],
        [("n0", StopPriority.NICE_TO_HAVE, StopStatus.PENDING),
          ("m1", StopPriority.MUST_VISIT, StopStatus.PENDING),
          ("m2", StopPriority.MUST_VISIT, StopStatus.DROPPED)]) := by
  rfl

/-- C6 (amended): if the drop loop (stage 5) drops a `MUST_VISIT` stop,
then every `NICE_TO_HAVE` stop of the routing set *at routing index ≥ 1*
has also been dropped; the stop at routing index 0 is excluded — both
passes of `drop_lowest_priority` skip it, so it is never dropped even
when it is `NICE_TO_HAVE`. -/
theorem claim6_priority_drops_excluding_start (solve : SolverFn) (fuel : Nat)
    (stops : List Stop) (c t : List (List Int)) (b d : Int)
    (s : Stop) (hs : s ∈ (solveLoop solve fuel stops c t b d).dropped)
    (hmust : s.priority = .MUST_VISIT) :
    ∀ s' ∈ stops.tail, s'.priority = .NICE_TO_HAVE →
      s'.id ∈ (solveLoop solve fuel stops c t b d).dropped.map Stop.id :=
  solveLoop_priority solve fuel stops c t b d s hs hmust

/-- Two `MUST_VISIT` stops on which every greedy extension violates a
negative budget, used by the C6 witness. -/
def stopsMM : List Stop := [mkStop "m0" .MUST_VISIT, mkStop "m1" .MUST_VISIT]

/-- The stop value dropped by the loop on `stopsMM`. -/
def droppedM1 : Stop :=
  { id := "m1", name := "m1", priority := .MUST_VISIT, status := .DROPPED,
    dropReason := some "Removed to satisfy budget/time constraints" }

theorem claim6_witness :
    droppedM1 ∈
      (solveLoop noneSolver 2 stopsMM [[0, 0], [0, 0]] [[0, 60], [60, 0]]
        (-1) 100).dropped ∧
    (∀ s' ∈ stopsMM.tail, s'.priority = .NICE_TO_HAVE →
      s'.id ∈ (solveLoop noneSolver 2 stopsMM [[0, 0], [0, 0]] [[0, 60], [60, 0]]
        (-1) 100).dropped.map Stop.id) :=
  ⟨by decide,
    claim6_priority_drops_excluding_start noneSolver 2 stopsMM
      [[0, 0], [0, 0]] [[0, 60], [60, 0]] (-1) 100 droppedM1 (by decide) rfl⟩

/-- C9: the endpoint never mutates the request itinerary object — line
529 deep-copies it and every in-place write of stages 1-7 targets one of
the two fresh copies — so, on success and on failure alike, every cell
that existed in the store before the call (in particular the input
itinerary with all its stops, legs, version, totals and status) is
unchanged afterwards. -/
theorem claim9_input_immutable (solve : SolverFn) (fetch : FetchFn) (env : Env)
    (st : Store) (reqRef : Nat) (event : DisruptionEvent) (r : Nat)
    (hr : r < st.length) :
    ((replanStateful solve fetch env st reqRef event).2).getD r default =
      st.getD r default := by
  unfold replanStateful
  split_ifs with h1 h2
  · exact getD_append_lt st _ r default hr
  · show (((st ++ [st.getD reqRef default]).set st.length
        (pipelineItin1 ⟨st.getD reqRef default, event⟩)).getD r default) =
      st.getD r default
    rw [getD_set_ne _ _ _ _ _ (by omega), getD_append_lt st _ r default hr]
  · match hroute : (pipelineLoop solve fetch env ⟨st.getD reqRef default, event⟩).route with
    | none =>
      show ((((st ++ [st.getD reqRef default]).set st.length
            (pipelineItin1 ⟨st.getD reqRef default, event⟩)).set st.length
          (applyLoopDrops (pipelineItin1 ⟨st.getD reqRef default, event⟩)
            (pipelineLoop solve fetch env ⟨st.getD reqRef default, event⟩).dropped)).getD
          r default) = st.getD r default
      rw [getD_set_ne _ _ _ _ _ (by omega), getD_set_ne _ _ _ _ _ (by omega),
        getD_append_lt st _ r default hr]
    | some ri =>
      show (((((st ++ [st.getD reqRef default]).set st.length
              (pipelineItin1 ⟨st.getD reqRef default, event⟩)).set st.length
            (applyLoopDrops (pipelineItin1 ⟨st.getD reqRef default, event⟩)
              (pipelineLoop solve fetch env ⟨st.getD reqRef default, event⟩).dropped)) ++
          [(assembleOutput env (st.getD reqRef default)
              (pipelineItin1 ⟨st.getD reqRef default, event⟩)
              (pipelineFetched fetch ⟨st.getD reqRef default, event⟩).2.2
              (pipelineLoop solve fetch env ⟨st.getD reqRef default, event⟩)
              ri).itinerary]).getD r default) = st.getD r default
      rw [getD_append_lt _ _ r default
          (by simp only [List.length_set, List.length_append, List.length_singleton]; omega),
        getD_set_ne _ _ _ _ _ (by omega), getD_set_ne _ _ _ _ _ (by omega),
        getD_append_lt st _ r default hr]

theorem claim9_witness :
    (0 < ([req2.itinerary] : Store).length) ∧
    ((replanStateful noneSolver fetch2 trivEnv [req2.itinerary] 0
        req2.disruption).2).getD 0 default =
      ([req2.itinerary] : Store).getD 0 default :=
  ⟨by decide,
    claim9_input_immutable noneSolver fetch2 trivEnv [req2.itinerary] 0
      req2.disruption 0 (by decide)⟩

end ElasticTravel
